import Mathlib

/-! # vuk: Resource / Pass model, Context bookkeeping and persistent descriptor sets

A shallow embedding of the parts of `include/vuk/RenderGraph.hpp` and
`src/Context.cpp` that the verified properties talk about.  A definition whose
doc comment starts with "Modelled from the spec:" stands for code that is
declared in these files but whose body is not among the sources.

Conventions of the embedding:

* machine integers are `Nat`, reduced `% 2 ^ 64` where the C++ value wraps;
* a C++ pointer or Vulkan handle is a `Nat` address, `0` being `nullptr` /
  `VK_NULL_HANDLE`, or an `Option` when the pointee is modelled;
* `assert(...)` is modelled by `Checked`: the failing branch is kept together
  with the value the function goes on to return when assertions are compiled out.
-/

namespace vuk

/-! ## Names -/

/-- The type `vuk::Name`: an interned string; `Name{}` is the empty name. -/
abbrev Name := String

/-- The default-constructed name `Name{}`. -/
def Name.empty : Name := ""

/-- The type `vuk::QualifiedName`: a (graph scope, name) pair. -/
structure QualifiedName where
  /-- graph scope -/
  scope : Name
  /-- name inside the scope -/
  name : Name
deriving DecidableEq, Repr

/-- The value `QualifiedName{}`: both components default-constructed. -/
def QualifiedName.empty : QualifiedName := ⟨Name.empty, Name.empty⟩

/-- The enumeration `vuk::Access`, by its underlying value. -/
abbrev Access := Nat

/-- A `RenderGraph*`: the address of a graph, `none` being `nullptr`. -/
abbrev RenderGraphPtr := Option Nat

/-! ## Resource (RenderGraph.hpp, `struct Resource`) -/

/-- The enumeration `Resource::Type`. -/
inductive Resource.Type
  | eBuffer
  | eImage
deriving DecidableEq, Repr

/-- The record `struct Resource`, with the default member initialisers of the declaration. -/
structure Resource where
  name : QualifiedName
  original_name : Name := Name.empty
  type : Resource.Type
  ia : Access
  out_name : QualifiedName := QualifiedName.empty
  foreign : RenderGraphPtr := none
  reference : Int := 0
  promoted_to_general : Bool := false
deriving DecidableEq, Repr

/-- Constructor `Resource(Name n, Type t, Access ia) : name{ Name{}, n }, type(t), ia(ia) {}` -/
def Resource.mk3 (n : Name) (t : Resource.Type) (ia : Access) : Resource :=
  { name := ⟨Name.empty, n⟩, type := t, ia := ia }

/-- Constructor `Resource(Name n, Type t, Access ia, Name out_name)
      : name{ Name{}, n }, type(t), ia(ia), out_name{ Name{}, out_name } {}` -/
def Resource.mk4 (n : Name) (t : Resource.Type) (ia : Access) (out_name : Name) : Resource :=
  { name := ⟨Name.empty, n⟩, type := t, ia := ia, out_name := ⟨Name.empty, out_name⟩ }

/-- Constructor `Resource(RenderGraph* foreign, QualifiedName n, Type t, Access ia)
      : name{ n }, type(t), ia(ia), foreign(foreign) {}` -/
def Resource.mkForeign (g : RenderGraphPtr) (n : QualifiedName) (t : Resource.Type)
    (ia : Access) : Resource :=
  { name := n, type := t, ia := ia, foreign := g }

/-- Equality `bool Resource::operator==(const Resource& o) const noexcept { return name == o.name; }` -/
def Resource.eq (a o : Resource) : Bool :=
  decide (a.name = o.name)

/-! ## Pass (RenderGraph.hpp, `struct Pass`) -/

/-- The enumeration
`enum class PassType { eUserPass, eClear, eResolve, eDiverge, eConverge, eForcedAccess }`. -/
inductive PassType
  | eUserPass
  | eClear
  | eResolve
  | eDiverge
  | eConverge
  | eForcedAccess
deriving DecidableEq, Repr

/-- The enumerators of `DomainFlagBits` that the embedded code names.  The enumeration is
declared in a header that is not among the sources, so the values are parameters of the
development. -/
structure DomainFlagBits where
  eGraphicsQueue : Nat
  eComputeQueue : Nat
  eTransferQueue : Nat
  eQueueMask : Nat
  eDevice : Nat
deriving DecidableEq, Repr

/-- The type `DomainFlags`: a bit mask of `DomainFlagBits`. -/
abbrev DomainFlags := Nat

/-- The record `struct Pass`.  The recording callback `execute` and the raw `arguments`
buffer carry no data of the model and are left out. -/
structure Pass where
  name : Name
  execute_on : DomainFlags
  resources : List Resource
  type : PassType
deriving DecidableEq, Repr

/-- A default-constructed `Pass`: `Name name;`, `DomainFlags execute_on = DomainFlagBits::eDevice;`,
`std::vector<Resource> resources;`, `PassType type = PassType::eUserPass;`. -/
def Pass.default (bits : DomainFlagBits) : Pass :=
  { name := Name.empty, execute_on := bits.eDevice, resources := [], type := PassType.eUserPass }

/-! ## Assertions -/

/-- Outcome of a function that may run into `assert(0)`: either it returns normally, or the
assertion is reached; `release_value` is what the function returns after the assertion
when assertions are compiled out. -/
inductive Checked (α : Type)
  | ok (value : α)
  | assert_failed (release_value : α)
deriving DecidableEq, Repr

/-- Whether the failing assertion was reached. -/
def Checked.asserts {α : Type} : Checked α → Bool
  | .ok _ => false
  | .assert_failed _ => true

/-- The returned value, with or without assertions compiled in. -/
def Checked.value {α : Type} : Checked α → α
  | .ok v => v
  | .assert_failed v => v

/-! ## Vulkan function pointers (Context.cpp, anonymous namespace) -/

/-- A Vulkan function pointer, by address; `0` is `nullptr`. -/
abbrev PFN := Nat

/-- The table `ContextCreateParameters::FunctionPointers`: one pointer per Vulkan entry point,
addressed by the entry point's name. -/
abbrev FunctionPointers := String → PFN

/-- Which of the two X-macros lists an entry point: `VUK_X` (device level, loaded with
`vkGetDeviceProcAddr`) or `VUK_Y` (instance level, loaded with `vkGetInstanceProcAddr`). -/
inductive PFNKind
  | VUK_X
  | VUK_Y
deriving DecidableEq, Repr

/-- One line `VUK_X(name)` or `VUK_Y(name)` of an X-macro list. -/
structure PFNEntry where
  kind : PFNKind
  name : String
deriving DecidableEq, Repr

/-- The two X-macro lists `vuk/VulkanPFNOptional.hpp` and `vuk/VulkanPFNRequired.hpp`.  The
headers are not among the sources, so their contents are parameters. -/
structure PFNLists where
  optional : List PFNEntry
  required : List PFNEntry
deriving DecidableEq, Repr

/-- The effect of calling a `vkGet*ProcAddr` function pointer: `call f handle name` is what
the function at address `f` returns for the instance or device `handle` and `name`. -/
abbrev ProcAddrCall := PFN → Nat → String → PFN

/-- One expansion of `VUK_X(name)` / `VUK_Y(name)` inside `load_pfns_dynamic`:
`if (pfns.name == nullptr) { pfns.name = pfns.vkGet{Device,Instance}ProcAddr(handle, #name); }`. -/
def load_pfn_entry (call : ProcAddrCall) (inst device : Nat) (pfns : FunctionPointers)
    (e : PFNEntry) : FunctionPointers :=
  if pfns e.name = 0 then
    match e.kind with
    | .VUK_X => Function.update pfns e.name (call (pfns "vkGetDeviceProcAddr") device e.name)
    | .VUK_Y => Function.update pfns e.name (call (pfns "vkGetInstanceProcAddr") inst e.name)
  else pfns

/-- The function `load_pfns_dynamic`: the optional list is expanded first, then the required one. -/
def load_pfns_dynamic (lists : PFNLists) (call : ProcAddrCall) (inst device : Nat)
    (pfns : FunctionPointers) : FunctionPointers :=
  (lists.optional ++ lists.required).foldl (load_pfn_entry call inst device) pfns

/-- The function `check_pfns`: `valid = valid && pfns.name;` for every line of the required list. -/
def check_pfns (lists : PFNLists) (pfns : FunctionPointers) : Bool :=
  lists.required.foldl (fun valid e => valid && decide (pfns e.name ≠ 0)) true

/-- The constant `VK_NULL_HANDLE`. -/
def VK_NULL_HANDLE : Nat := 0

/-- The constant `VK_QUEUE_FAMILY_IGNORED`, which is `~0U`. -/
def VK_QUEUE_FAMILY_IGNORED : Nat := 4294967295

/-- The record `ContextCreateParameters`. -/
structure ContextCreateParameters where
  vk_instance : Nat
  device : Nat
  physical_device : Nat
  graphics_queue : Nat
  graphics_queue_family_index : Nat
  compute_queue : Nat
  compute_queue_family_index : Nat
  transfer_queue : Nat
  transfer_queue_family_index : Nat
  allow_dynamic_loading_of_vk_function_pointers : Bool
  pointers : FunctionPointers

/-- The function `load_pfns`; the table is passed by reference, so the updated table is
returned next to the result. -/
def load_pfns (lists : PFNLists) (call : ProcAddrCall) (params : ContextCreateParameters)
    (pfns : FunctionPointers) : Bool × FunctionPointers :=
  if check_pfns lists pfns then
    (true, pfns)
  else if pfns "vkGetInstanceProcAddr" ≠ 0 ∧ pfns "vkGetDeviceProcAddr" ≠ 0
      ∧ params.allow_dynamic_loading_of_vk_function_pointers = true then
    let pfns1 := load_pfns_dynamic lists call params.vk_instance params.device pfns
    (check_pfns lists pfns1, pfns1)
  else
    (false, pfns)

/-! ## Queues and the device resource -/

/-- A `TimelineSemaphore`, by the handle the device gave it. -/
abbrev TimelineSemaphore := Nat

/-- The class `Queue`, as built by
`Queue(vkQueueSubmit, vkQueueSubmit2KHR, queue, queue_family_index, ts)`. -/
structure Queue where
  queueSubmit : PFN
  queueSubmit2KHR : PFN
  queue : Nat
  family_index : Nat
  submit_sync : TimelineSemaphore
deriving DecidableEq, Repr

/-- The accessor `Queue::get_submit_sync`: the timeline semaphore the queue was built with. -/
def Queue.get_submit_sync (q : Queue) : TimelineSemaphore := q.submit_sync

/-- A `Queue*` member of `Context`: null, the address of one of the three
`std::optional<Queue>` members of the same object, or the address
`&o.dedicated_compute_queue.value()` inside the object `o` that a move took the state
from. -/
inductive QueuePtr
  | null
  | dedicated_graphics_queue
  | dedicated_compute_queue
  | dedicated_transfer_queue
  | moved_from_dedicated_compute_queue
deriving DecidableEq, Repr

/-- Modelled from the spec: the device resource behind `impl->device_vk_resource`
(`DeviceVkResource`, not among the sources) creates and destroys the timeline
synchronisation primitive.  The model keeps the two logs of the semaphores it handed out
and of those it was given back, oldest first. -/
structure DeviceVkResource where
  allocated : List TimelineSemaphore
  deallocated : List TimelineSemaphore
deriving DecidableEq, Repr

/-- Modelled from the spec: `allocate_timeline_semaphores(std::span{ &ts, 1 }, {})` creates
one semaphore and stores it in `ts`; `fresh n` is the handle the device gives to the
semaphore created after `n` earlier ones. -/
def DeviceVkResource.allocate_timeline_semaphore (fresh : Nat → TimelineSemaphore)
    (r : DeviceVkResource) : TimelineSemaphore × DeviceVkResource :=
  let ts := fresh r.allocated.length
  (ts, { r with allocated := r.allocated ++ [ts] })

/-- Modelled from the spec: `deallocate_timeline_semaphores(std::span{ &ts, 1 })` destroys the
one semaphore it is given. -/
def DeviceVkResource.deallocate_timeline_semaphore (r : DeviceVkResource)
    (ts : TimelineSemaphore) : DeviceVkResource :=
  { r with deallocated := r.deallocated ++ [ts] }

/-! ## Context -/

/-- The record `Query`: `{ uint64_t id; }`. -/
structure Query where
  id : Nat
deriving DecidableEq, Repr

/-- The state behind `Context::impl` that the embedded functions touch (`ContextImpl` is
declared in `ContextImpl.hpp`, not among the sources): the three counters, the timestamp
result map, the device resource, and the log of the frames `collect` was called with,
oldest first. -/
structure ContextImpl where
  frame_counter : Nat
  unique_handle_id_counter : Nat
  query_id_counter : Nat
  timestamp_result_map : List (Query × Nat)
  collected : List Nat
  device_vk_resource : DeviceVkResource
deriving DecidableEq, Repr

/-- Modelled from the spec: `ContextImpl::collect(frame)` (not among the sources) reclaims the
cached allocations that are due at `frame`; the caches are not part of the model, which
records the call. -/
def ContextImpl.collect (i : ContextImpl) (frame : Nat) : ContextImpl :=
  { i with collected := i.collected ++ [frame] }

/-- The class `Context`: the function-pointer table it inherits, the handles, the queue
family indices, the three optional queues with the three pointers into them, and `impl`
(`none` is `nullptr`). -/
structure Context where
  pfns : FunctionPointers
  vk_instance : Nat
  device : Nat
  physical_device : Nat
  graphics_queue_family_index : Nat
  compute_queue_family_index : Nat
  transfer_queue_family_index : Nat
  dedicated_graphics_queue : Option Queue
  dedicated_compute_queue : Option Queue
  dedicated_transfer_queue : Option Queue
  graphics_queue : QueuePtr
  compute_queue : QueuePtr
  transfer_queue : QueuePtr
  impl : Option ContextImpl

/-- What the constructor takes from outside `Context.cpp`: the X-macro lists, the behaviour
of the `vkGet*ProcAddr` pointers, the value the member `compute_queue` holds before the
constructor body assigns it (its declaration is in `Context.hpp`), the state
`new ContextImpl(*this)` starts in, and the handles of the semaphores the device creates. -/
structure ContextEnv where
  lists : PFNLists
  call : ProcAddrCall
  compute_queue_init : QueuePtr
  new_impl : ContextImpl
  fresh : Nat → TimelineSemaphore

/-- The constructor `Context::Context(ContextCreateParameters params)`.  The outcome is
`assert_failed` when `assert(pfn_load_success)` fails.  The flag `dedicated_graphics_queue_`
is set and never read, and the queries of the physical device properties at the end of the
body touch no state of the model; both are left out. -/
def Context.construct (env : ContextEnv) (params : ContextCreateParameters) : Checked Context :=
  let (pfn_load_success, pfns) := load_pfns env.lists env.call params params.pointers
  let dedicated_compute_queue_ : Bool :=
    decide (params.compute_queue ≠ VK_NULL_HANDLE
      ∧ params.compute_queue_family_index ≠ VK_QUEUE_FAMILY_IGNORED)
  let dedicated_transfer_queue_ : Bool :=
    decide (params.transfer_queue ≠ VK_NULL_HANDLE
      ∧ params.transfer_queue_family_index ≠ VK_QUEUE_FAMILY_IGNORED)
  let compute_queue_family_index :=
    if dedicated_compute_queue_ then params.compute_queue_family_index
    else params.graphics_queue_family_index
  let transfer_queue_family_index :=
    if dedicated_transfer_queue_ then params.transfer_queue_family_index
    else if env.compute_queue_init ≠ QueuePtr.null then params.compute_queue_family_index
    else params.graphics_queue_family_index
  let impl := env.new_impl
  -- graphics queue
  let (ts_g, dev1) := impl.device_vk_resource.allocate_timeline_semaphore env.fresh
  let dedicated_graphics_queue : Option Queue :=
    some ⟨pfns "vkQueueSubmit", pfns "vkQueueSubmit2KHR", params.graphics_queue,
      params.graphics_queue_family_index, ts_g⟩
  let graphics_queue := QueuePtr.dedicated_graphics_queue
  -- compute queue
  let (dedicated_compute_queue, compute_queue, dev2) :=
    if dedicated_compute_queue_ then
      let (ts, dev) := dev1.allocate_timeline_semaphore env.fresh
      ((some ⟨pfns "vkQueueSubmit", pfns "vkQueueSubmit2KHR", params.compute_queue,
        params.compute_queue_family_index, ts⟩ : Option Queue),
        QueuePtr.dedicated_compute_queue, dev)
    else
      (none, graphics_queue, dev1)
  -- transfer queue
  let (dedicated_transfer_queue, transfer_queue, dev3) :=
    if dedicated_transfer_queue_ then
      let (ts, dev) := dev2.allocate_timeline_semaphore env.fresh
      ((some ⟨pfns "vkQueueSubmit", pfns "vkQueueSubmit2KHR", params.transfer_queue,
        params.transfer_queue_family_index, ts⟩ : Option Queue),
        QueuePtr.dedicated_transfer_queue, dev)
    else
      (none, if compute_queue ≠ QueuePtr.null then compute_queue else graphics_queue, dev2)
  let ctx : Context :=
    { pfns := pfns
      vk_instance := params.vk_instance
      device := params.device
      physical_device := params.physical_device
      graphics_queue_family_index := params.graphics_queue_family_index
      compute_queue_family_index := compute_queue_family_index
      transfer_queue_family_index := transfer_queue_family_index
      dedicated_graphics_queue := dedicated_graphics_queue
      dedicated_compute_queue := dedicated_compute_queue
      dedicated_transfer_queue := dedicated_transfer_queue
      graphics_queue := graphics_queue
      compute_queue := compute_queue
      transfer_queue := transfer_queue
      impl := some { impl with device_vk_resource := dev3 } }
  if pfn_load_success then Checked.ok ctx else Checked.assert_failed ctx

/-- The destructor `Context::~Context`, as far as the device resource is concerned: the state
of `impl->device_vk_resource` when `delete impl` is reached, or `none` when `impl` is null
and the body is skipped.  The destruction of swapchains and of the pipeline cache is not
part of the model. -/
def Context.destruct (c : Context) : Option DeviceVkResource :=
  match c.impl with
  | none => none
  | some impl =>
    let dev0 := impl.device_vk_resource
    let dev1 := match c.dedicated_graphics_queue with
      | some q => dev0.deallocate_timeline_semaphore q.get_submit_sync
      | none => dev0
    let dev2 := match c.dedicated_compute_queue with
      | some q => dev1.deallocate_timeline_semaphore q.get_submit_sync
      | none => dev1
    let dev3 := match c.dedicated_transfer_queue with
      | some q => dev2.deallocate_timeline_semaphore q.get_submit_sync
      | none => dev2
    some dev3

/-! ## Domains and queues (Context.cpp, `domain_to_queue*`) -/

/-- The function `Context::domain_to_queue`: the `Queue*` member that is dereferenced.  The
`default:` branch runs into `assert(0)` and then returns `*transfer_queue`. -/
def Context.domain_to_queue (bits : DomainFlagBits) (c : Context) (domain : DomainFlags) :
    Checked QueuePtr :=
  let queue_only := domain &&& bits.eQueueMask
  if queue_only = bits.eGraphicsQueue then Checked.ok c.graphics_queue
  else if queue_only = bits.eComputeQueue then Checked.ok c.compute_queue
  else if queue_only = bits.eTransferQueue then Checked.ok c.transfer_queue
  else Checked.assert_failed c.transfer_queue

/-- The function `Context::domain_to_queue_index`.  The `default:` branch runs into
`assert(0)` and then returns `0`. -/
def Context.domain_to_queue_index (bits : DomainFlagBits) (c : Context) (domain : DomainFlags) :
    Checked Nat :=
  let queue_only := domain &&& bits.eQueueMask
  if queue_only = bits.eGraphicsQueue then Checked.ok c.graphics_queue_family_index
  else if queue_only = bits.eComputeQueue then Checked.ok c.compute_queue_family_index
  else if queue_only = bits.eTransferQueue then Checked.ok c.transfer_queue_family_index
  else Checked.assert_failed 0

/-- The function `Context::domain_to_queue_family_index`:
`return domain_to_queue_index(domain);`. -/
def Context.domain_to_queue_family_index (bits : DomainFlagBits) (c : Context)
    (domain : DomainFlags) : Checked Nat :=
  c.domain_to_queue_index bits domain

/-- The case labels of the two `switch` statements are pairwise different (the C++ compiler
rejects a `switch` with a repeated label). -/
def DomainFlagBits.distinct_queues (bits : DomainFlagBits) : Prop :=
  bits.eGraphicsQueue ≠ bits.eComputeQueue ∧ bits.eGraphicsQueue ≠ bits.eTransferQueue
    ∧ bits.eComputeQueue ≠ bits.eTransferQueue

instance (bits : DomainFlagBits) : Decidable bits.distinct_queues := by
  unfold DomainFlagBits.distinct_queues; infer_instance

/-- The number of queue bits set in a domain, when the three queue enumerators are the
bits number `g`, `c` and `t`. -/
def queue_bit_count (g c t : Nat) (domain : DomainFlags) : Nat :=
  (if domain.testBit g then 1 else 0) + (if domain.testBit c then 1 else 0)
    + (if domain.testBit t then 1 else 0)

/-! ## Counters (Context.cpp) -/

/-- The function `Context::get_frame_count`: `return impl->frame_counter;`.  The result is `none`
when `impl` is null, as for every function below that goes through `impl`. -/
def Context.get_frame_count (c : Context) : Option Nat :=
  match c.impl with
  | none => none
  | some i => some i.frame_counter

/-- The function `Context::collect`: `impl->collect(frame);`. -/
def Context.collect (c : Context) (frame : Nat) : Option Context :=
  match c.impl with
  | none => none
  | some i => some { c with impl := some (i.collect frame) }

/-- The function `Context::next_frame`: `impl->frame_counter++; collect(impl->frame_counter);`.
The counter is 64 bits wide. -/
def Context.next_frame (c : Context) : Option Context :=
  match c.impl with
  | none => none
  | some i =>
    let i1 := { i with frame_counter := (i.frame_counter + 1) % 2 ^ 64 }
    Context.collect { c with impl := some i1 } i1.frame_counter

/-- The function `Context::get_unique_handle_id`: `return impl->unique_handle_id_counter++;`.
The counter is 64 bits wide. -/
def Context.get_unique_handle_id (c : Context) : Option (Nat × Context) :=
  match c.impl with
  | none => none
  | some i =>
    let i1 := { i with unique_handle_id_counter := (i.unique_handle_id_counter + 1) % 2 ^ 64 }
    some (i.unique_handle_id_counter, { c with impl := some i1 })

/-- The function `Context::create_timestamp_query`: `return { impl->query_id_counter++ };`. -/
def Context.create_timestamp_query (c : Context) : Option (Query × Context) :=
  match c.impl with
  | none => none
  | some i =>
    let i1 := { i with query_id_counter := (i.query_id_counter + 1) % 2 ^ 64 }
    some (⟨i.query_id_counter⟩, { c with impl := some i1 })

/-- The ids returned by `n` successive calls of `get_unique_handle_id`, first call first, with
the context the calls leave behind. -/
def Context.get_unique_handle_ids : Nat → Context → Option (List Nat × Context)
  | 0, c => some ([], c)
  | n + 1, c =>
    match c.get_unique_handle_id with
    | none => none
    | some (id, c1) =>
      match Context.get_unique_handle_ids n c1 with
      | none => none
      | some (ids, c2) => some (id :: ids, c2)

/-- The queries returned by `n` successive calls of `create_timestamp_query`, first call first,
with the context the calls leave behind. -/
def Context.create_timestamp_queries : Nat → Context → Option (List Query × Context)
  | 0, c => some ([], c)
  | n + 1, c =>
    match c.create_timestamp_query with
    | none => none
    | some (q, c1) =>
      match Context.create_timestamp_queries n c1 with
      | none => none
      | some (qs, c2) => some (q :: qs, c2)

/-- The counters of a context are 64-bit values. -/
def ContextImpl.counters_in_range (i : ContextImpl) : Prop :=
  i.frame_counter < 2 ^ 64 ∧ i.unique_handle_id_counter < 2 ^ 64 ∧ i.query_id_counter < 2 ^ 64

/-! ## Moves and debug names (Context.cpp) -/

/-- The queue a `Queue*` member of `c` points at, as far as `c` itself holds it: a pointer
into another object is not resolved. -/
def Context.deref_queue (c : Context) : QueuePtr → Option Queue
  | .null => none
  | .dedicated_graphics_queue => c.dedicated_graphics_queue
  | .dedicated_compute_queue => c.dedicated_compute_queue
  | .dedicated_transfer_queue => c.dedicated_transfer_queue
  | .moved_from_dedicated_compute_queue => none

/-- The function `Context::debug_enabled`:
`return this->vkSetDebugUtilsObjectNameEXT != nullptr;`. -/
def Context.debug_enabled (c : Context) : Bool :=
  decide (c.pfns "vkSetDebugUtilsObjectNameEXT" ≠ 0)

/-- The body shared by the move constructor and the move assignment, applied to the object
`self` being written and the source `o`: every statement from `instance = o.instance;` to the
choice of `transfer_queue`, with `impl` taken from `o`.  The function-pointer table is the
base class of `Context`; no statement of either function assigns it, so `self.pfns` stays.
The result is `none` when `dedicated_graphics_queue.value()` throws inside the `noexcept`
function or when `impl->...` dereferences a null `impl`. -/
def Context.move_body (self o : Context) : Option Context :=
  match o.impl, o.dedicated_graphics_queue with
  | some impl, some g =>
    let graphics_queue := QueuePtr.dedicated_graphics_queue
    let compute_queue :=
      if o.dedicated_compute_queue.isSome then QueuePtr.moved_from_dedicated_compute_queue
      else graphics_queue
    let transfer_queue :=
      if o.dedicated_transfer_queue.isSome then QueuePtr.dedicated_transfer_queue
      else if compute_queue ≠ QueuePtr.null then compute_queue else graphics_queue
    some { pfns := self.pfns
           vk_instance := o.vk_instance
           device := o.device
           physical_device := o.physical_device
           graphics_queue_family_index := o.graphics_queue_family_index
           compute_queue_family_index := o.compute_queue_family_index
           transfer_queue_family_index := o.transfer_queue_family_index
           dedicated_graphics_queue := some g
           dedicated_compute_queue := o.dedicated_compute_queue
           dedicated_transfer_queue := o.dedicated_transfer_queue
           graphics_queue := graphics_queue
           compute_queue := compute_queue
           transfer_queue := transfer_queue
           impl := some impl }
  | _, _ => none

/-- An object whose members are not yet written, as the move constructor finds it: the base
class `FunctionPointers` is default-constructed (it is not in the initialiser list), which
gives the table `default_pfns`; its declaration is in `Context.hpp`, not among the sources. -/
def Context.uninitialised (default_pfns : FunctionPointers) : Context :=
  { pfns := default_pfns, vk_instance := 0, device := 0, physical_device := 0,
    graphics_queue_family_index := 0, compute_queue_family_index := 0,
    transfer_queue_family_index := 0, dedicated_graphics_queue := none,
    dedicated_compute_queue := none, dedicated_transfer_queue := none,
    graphics_queue := .null, compute_queue := .null, transfer_queue := .null, impl := none }

/-- The move constructor `Context::Context(Context&& o) noexcept`: the new object. -/
def Context.move_construct (default_pfns : FunctionPointers) (o : Context) : Option Context :=
  Context.move_body (Context.uninitialised default_pfns) o

/-- The move assignment `Context& Context::operator=(Context&& o) noexcept`: the object
assigned to, after the assignment. -/
def Context.move_assign (self o : Context) : Option Context :=
  Context.move_body self o

/-- The source of a move, after the move: `std::exchange(o.impl, nullptr)`. -/
def Context.moved_from (o : Context) : Context :=
  { o with impl := none }

/-! ## Timestamp results (Context.cpp) -/

/-- The lookup `impl->timestamp_result_map.find(q)`: the entry found, if any. -/
def timestamp_find (m : List (Query × Nat)) (q : Query) : Option (Query × Nat) :=
  m.find? (fun e => decide (e.1 = q))

/-- The function `Context::is_timestamp_available`. -/
def Context.is_timestamp_available (c : Context) (q : Query) : Option Bool :=
  match c.impl with
  | none => none
  | some i => some (timestamp_find i.timestamp_result_map q).isSome

/-- The function `Context::retrieve_timestamp`: the returned `std::optional<uint64_t>` and the
context afterwards; `erase(it)` removes the entry that `find` returned. -/
def Context.retrieve_timestamp (c : Context) (q : Query) : Option (Option Nat × Context) :=
  match c.impl with
  | none => none
  | some i =>
    match timestamp_find i.timestamp_result_map q with
    | some e =>
      let m1 := i.timestamp_result_map.eraseP (fun e => decide (e.1 = q))
      some (some e.2, { c with impl := some { i with timestamp_result_map := m1 } })
    | none => some (none, c)

/-- The invariant of `std::unordered_map`: no two entries have the same key. -/
def ContextImpl.timestamp_keys_unique (i : ContextImpl) : Prop :=
  (i.timestamp_result_map.map Prod.fst).Nodup

/-! ## Persistent descriptor sets (Context.cpp, `PersistentDescriptorSet`) -/

/-- The enumerators of `DescriptorType` (an enumeration over `uint8_t`) that the embedded code
names.  The enumeration is declared in a header that is not among the sources, so the values
are parameters of the development. -/
structure DescriptorTypeBits where
  eSampler : Nat
  eCombinedImageSampler : Nat
  eSampledImage : Nat
  eStorageImage : Nat
  eUniformBuffer : Nat
  eStorageBuffer : Nat
  eAccelerationStructureKHR : Nat
  ePendingWrite : Nat
deriving DecidableEq, Repr

/-- The cast `(uint8_t)x`. -/
def u8 (x : Nat) : Nat := x % 256

/-- The constant `VK_IMAGE_LAYOUT_GENERAL`, the value of `ImageLayout::eGeneral`. -/
def ImageLayout.eGeneral : Nat := 1

/-- The constant `VK_STRUCTURE_TYPE_WRITE_DESCRIPTOR_SET`. -/
def VK_STRUCTURE_TYPE_WRITE_DESCRIPTOR_SET : Nat := 35

/-- The constant `VK_STRUCTURE_TYPE_WRITE_DESCRIPTOR_SET_ACCELERATION_STRUCTURE_KHR`. -/
def VK_STRUCTURE_TYPE_WRITE_DESCRIPTOR_SET_ACCELERATION_STRUCTURE_KHR : Nat := 1000150007

/-- The record `DescriptorImageInfo`, as built by `DescriptorImageInfo(sampler, iv, layout)`;
a sampler, an image view and a layout are given by handle or value, `{}` being `0`. -/
structure DescriptorImageInfo where
  sampler : Nat
  image_view : Nat
  layout : Nat
deriving DecidableEq, Repr

/-- The record `VkDescriptorBufferInfo`. -/
structure VkDescriptorBufferInfo where
  buffer : Nat
  offset : Nat
  range : Nat
deriving DecidableEq, Repr

/-- The fields of `vuk::Buffer` that the updates read. -/
structure Buffer where
  buffer : Nat
  offset : Nat
  size : Nat
deriving DecidableEq, Repr

/-- The address of the descriptor binding `descriptor_bindings[i][j]`, or of a member of it. -/
abbrev BindingAddr := Nat × Nat

/-- The record `VkWriteDescriptorSetAccelerationStructureKHR`, as far as `commit` fills it. -/
structure VkWriteDescriptorSetAccelerationStructureKHR where
  sType : Nat
  accelerationStructureCount : Nat
  pAccelerationStructures : Option BindingAddr
deriving DecidableEq, Repr

/-- The member `as` of a descriptor binding: the acceleration structure handle `as.as` and the
write extension `as.wds`. -/
structure ASInfo where
  as : Nat
  wds : VkWriteDescriptorSetAccelerationStructureKHR
deriving DecidableEq, Repr

/-- The record `DescriptorBinding`, by the members the embedded code reads and writes: the
`type` (a `DescriptorType`, by its `uint8_t` value) and the payloads `image`, `buffer`, `as`.
Whether the payloads share storage is a matter of the declaration, which is not among the
sources; the model keeps them apart. -/
structure DescriptorBinding where
  type : Nat
  image : DescriptorImageInfo
  buffer : VkDescriptorBufferInfo
  as : ASInfo
deriving DecidableEq, Repr

/-- The record `VkWriteDescriptorSet`, by the members `commit` sets. -/
structure VkWriteDescriptorSet where
  sType : Nat
  pNext : Option BindingAddr
  dstSet : Nat
  dstBinding : Nat
  dstArrayElement : Nat
  descriptorCount : Nat
  descriptorType : Nat
  pImageInfo : BindingAddr
  pBufferInfo : BindingAddr
deriving DecidableEq, Repr

/-- The record `PersistentDescriptorSet`, by the members the embedded code touches. -/
structure PersistentDescriptorSet where
  backing_set : Nat
  wdss : List VkWriteDescriptorSet
  descriptor_bindings : List (List DescriptorBinding)
deriving DecidableEq, Repr

/-- The part common to the seven `update_*` functions: the two assertions
`assert(binding < descriptor_bindings.size());` and
`assert(array_index < descriptor_bindings[binding].size());`, then the writes `f` to
`descriptor_bindings[binding][array_index]`.  The result is `none` when an assertion fails. -/
def PersistentDescriptorSet.update_binding (pds : PersistentDescriptorSet)
    (binding array_index : Nat) (f : DescriptorBinding → DescriptorBinding) :
    Option PersistentDescriptorSet :=
  if h1 : binding < pds.descriptor_bindings.length then
    if h2 : array_index < (pds.descriptor_bindings[binding]).length then
      let db := pds.descriptor_bindings[binding]
      some { pds with
        descriptor_bindings := pds.descriptor_bindings.set binding
          (db.set array_index (f db[array_index])) }
    else none
  else none

/-- The function `PersistentDescriptorSet::update_combined_image_sampler`. -/
def PersistentDescriptorSet.update_combined_image_sampler (bits : DescriptorTypeBits)
    (pds : PersistentDescriptorSet) (binding array_index iv sampler layout : Nat) :
    Option PersistentDescriptorSet :=
  pds.update_binding binding array_index fun e =>
    { e with image := ⟨sampler, iv, layout⟩,
             type := u8 bits.eCombinedImageSampler ||| u8 bits.ePendingWrite }

/-- The function `PersistentDescriptorSet::update_storage_image`. -/
def PersistentDescriptorSet.update_storage_image (bits : DescriptorTypeBits)
    (pds : PersistentDescriptorSet) (binding array_index iv : Nat) :
    Option PersistentDescriptorSet :=
  pds.update_binding binding array_index fun e =>
    { e with image := ⟨0, iv, ImageLayout.eGeneral⟩,
             type := u8 bits.eStorageImage ||| u8 bits.ePendingWrite }

/-- The function `PersistentDescriptorSet::update_uniform_buffer`. -/
def PersistentDescriptorSet.update_uniform_buffer (bits : DescriptorTypeBits)
    (pds : PersistentDescriptorSet) (binding array_index : Nat) (buffer : Buffer) :
    Option PersistentDescriptorSet :=
  pds.update_binding binding array_index fun e =>
    { e with buffer := ⟨buffer.buffer, buffer.offset, buffer.size⟩,
             type := u8 bits.eUniformBuffer ||| u8 bits.ePendingWrite }

/-- The function `PersistentDescriptorSet::update_storage_buffer`. -/
def PersistentDescriptorSet.update_storage_buffer (bits : DescriptorTypeBits)
    (pds : PersistentDescriptorSet) (binding array_index : Nat) (buffer : Buffer) :
    Option PersistentDescriptorSet :=
  pds.update_binding binding array_index fun e =>
    { e with buffer := ⟨buffer.buffer, buffer.offset, buffer.size⟩,
             type := u8 bits.eStorageBuffer ||| u8 bits.ePendingWrite }

/-- The function `PersistentDescriptorSet::update_sampler`. -/
def PersistentDescriptorSet.update_sampler (bits : DescriptorTypeBits)
    (pds : PersistentDescriptorSet) (binding array_index sampler : Nat) :
    Option PersistentDescriptorSet :=
  pds.update_binding binding array_index fun e =>
    { e with image := ⟨sampler, 0, 0⟩,
             type := u8 bits.eSampler ||| u8 bits.ePendingWrite }

/-- The function `PersistentDescriptorSet::update_sampled_image`. -/
def PersistentDescriptorSet.update_sampled_image (bits : DescriptorTypeBits)
    (pds : PersistentDescriptorSet) (binding array_index iv layout : Nat) :
    Option PersistentDescriptorSet :=
  pds.update_binding binding array_index fun e =>
    { e with image := ⟨0, iv, layout⟩,
             type := u8 bits.eSampledImage ||| u8 bits.ePendingWrite }

/-- The function `PersistentDescriptorSet::update_acceleration_structure`. -/
def PersistentDescriptorSet.update_acceleration_structure (bits : DescriptorTypeBits)
    (pds : PersistentDescriptorSet) (binding array_index as : Nat) :
    Option PersistentDescriptorSet :=
  pds.update_binding binding array_index fun e =>
    { e with as := { e.as with as := as },
             type := u8 bits.eAccelerationStructureKHR ||| u8 bits.ePendingWrite }

/-- The test `(uint8_t)type & (uint8_t)DescriptorType::ePendingWrite` of `commit`. -/
def pending_write (bits : DescriptorTypeBits) (type : Nat) : Bool :=
  decide (u8 type &&& u8 bits.ePendingWrite ≠ 0)

/-- The value `(DescriptorType)((uint8_t)type & ~(uint8_t)DescriptorType::ePendingWrite)`: both
operands are promoted to `int`, so the complement keeps the low eight bits of the result. -/
def clear_pending_write (bits : DescriptorTypeBits) (type : Nat) : Nat :=
  u8 type &&& (u8 bits.ePendingWrite ^^^ 255)

/-- The `VkWriteDescriptorSet` that `commit` pushes for the binding at `(i, j)`, whose type,
with the pending bit cleared, is `type`; `vk_descriptor_type` is
`DescriptorBinding::vk_descriptor_type`, declared outside the sources. -/
def commit_write (bits : DescriptorTypeBits) (vk_descriptor_type : Nat → Nat)
    (backing_set i j type : Nat) : VkWriteDescriptorSet :=
  { sType := VK_STRUCTURE_TYPE_WRITE_DESCRIPTOR_SET
    pNext := if type = bits.eAccelerationStructureKHR then some (i, j) else none
    dstSet := backing_set
    dstBinding := i
    dstArrayElement := j
    descriptorCount := 1
    descriptorType := vk_descriptor_type type
    pImageInfo := (i, j)
    pBufferInfo := (i, j) }

/-- The body of the inner loop of `commit` for `db[j]`, `db` being `descriptor_bindings[i]`: the
binding afterwards and the write pushed to `wdss`, if any. -/
def commit_binding (bits : DescriptorTypeBits) (vk_descriptor_type : Nat → Nat)
    (backing_set i j : Nat) (e : DescriptorBinding) :
    DescriptorBinding × Option VkWriteDescriptorSet :=
  if pending_write bits e.type then
    let type := clear_pending_write bits e.type
    let e1 : DescriptorBinding := { e with type := type }
    let e2 : DescriptorBinding :=
      if type = bits.eAccelerationStructureKHR then
        { e1 with as := { e1.as with wds :=
            ⟨VK_STRUCTURE_TYPE_WRITE_DESCRIPTOR_SET_ACCELERATION_STRUCTURE_KHR, 1, some (i, j)⟩ } }
      else e1
    (e2, some (commit_write bits vk_descriptor_type backing_set i j type))
  else (e, none)

/-- The inner loop of `commit` over `db = descriptor_bindings[i]`, from index `j` on: the
bindings afterwards and the writes pushed, in the order they are pushed.  The loop counters
are `unsigned`; a set has fewer than `2 ^ 32` bindings and array elements. -/
def commit_row (bits : DescriptorTypeBits) (vk_descriptor_type : Nat → Nat)
    (backing_set i : Nat) : Nat → List DescriptorBinding →
    List DescriptorBinding × List VkWriteDescriptorSet
  | _, [] => ([], [])
  | j, e :: rest =>
    let r := commit_binding bits vk_descriptor_type backing_set i j e
    let rs := commit_row bits vk_descriptor_type backing_set i (j + 1) rest
    (r.1 :: rs.1, r.2.toList ++ rs.2)

/-- The outer loop of `commit`, from index `i` on. -/
def commit_rows (bits : DescriptorTypeBits) (vk_descriptor_type : Nat → Nat)
    (backing_set : Nat) : Nat → List (List DescriptorBinding) →
    List (List DescriptorBinding) × List VkWriteDescriptorSet
  | _, [] => ([], [])
  | i, db :: rest =>
    let r := commit_row bits vk_descriptor_type backing_set i 0 db
    let rs := commit_rows bits vk_descriptor_type backing_set (i + 1) rest
    (r.1 :: rs.1, r.2 ++ rs.2)

/-- The function `PersistentDescriptorSet::commit`: `wdss.clear()`, the two loops, and the call
`ctx.vkUpdateDescriptorSets(ctx.device, wdss.size(), wdss.data(), 0, nullptr)`, which reads
`wdss` and changes nothing in the set. -/
def PersistentDescriptorSet.commit (bits : DescriptorTypeBits) (vk_descriptor_type : Nat → Nat)
    (pds : PersistentDescriptorSet) : PersistentDescriptorSet :=
  let r := commit_rows bits vk_descriptor_type pds.backing_set 0 pds.descriptor_bindings
  { pds with wdss := r.2, descriptor_bindings := r.1 }

/-- The binding `descriptor_bindings[i][j]`, if there is one. -/
def PersistentDescriptorSet.binding (pds : PersistentDescriptorSet) (i j : Nat) :
    Option DescriptorBinding :=
  (pds.descriptor_bindings[i]?).bind (fun db => db[j]?)

/-- The order of the writes: ascending lexicographic in (binding index, array index). -/
def write_before (a b : VkWriteDescriptorSet) : Prop :=
  a.dstBinding < b.dstBinding
    ∨ (a.dstBinding = b.dstBinding ∧ a.dstArrayElement < b.dstArrayElement)

/-- What the enumerators have to satisfy for a descriptor kind `k` to be read back after the
pending bit is set and cleared: `ePendingWrite` is a non-zero `uint8_t` value, and `k` is a
`uint8_t` value that shares no bit with it. -/
def DescriptorTypeBits.kind_ok (bits : DescriptorTypeBits) (k : Nat) : Prop :=
  bits.ePendingWrite < 256 ∧ bits.ePendingWrite ≠ 0 ∧ k < 256 ∧ k &&& bits.ePendingWrite = 0

instance (bits : DescriptorTypeBits) (k : Nat) : Decidable (bits.kind_ok k) := by
  unfold DescriptorTypeBits.kind_ok; infer_instance

/-- The step from `pds` to `pds1` rewrites the binding at `(b, a)`, which exists, by `f` and
changes nothing else: the backing set, the write list, the shape of the table and every
other binding stay. -/
def PersistentDescriptorSet.updated_only_at (pds pds1 : PersistentDescriptorSet) (b a : Nat)
    (f : DescriptorBinding → DescriptorBinding) : Prop :=
  pds1.backing_set = pds.backing_set
    ∧ pds1.wdss = pds.wdss
    ∧ pds1.descriptor_bindings.map List.length = pds.descriptor_bindings.map List.length
    ∧ (pds.binding b a).isSome = true
    ∧ pds1.binding b a = (pds.binding b a).map f
    ∧ ∀ i j, (i, j) ≠ (b, a) → pds1.binding i j = pds.binding i j

/-- The descriptor kinds that the seven `update_*` functions write. -/
def DescriptorTypeBits.kinds (bits : DescriptorTypeBits) : List Nat :=
  [bits.eCombinedImageSampler, bits.eStorageImage, bits.eUniformBuffer, bits.eStorageBuffer,
    bits.eSampler, bits.eSampledImage, bits.eAccelerationStructureKHR]

/-- A commit of `pds1` emits a write for the binding at `(b, a)` with the Vulkan descriptor
type of the kind `k`, and leaves the type of that binding equal to `k`. -/
def PersistentDescriptorSet.commit_writes_kind (bits : DescriptorTypeBits)
    (vk_descriptor_type : Nat → Nat) (pds1 : PersistentDescriptorSet) (b a k : Nat) : Prop :=
  (∃ w ∈ (pds1.commit bits vk_descriptor_type).wdss,
      w.dstBinding = b ∧ w.dstArrayElement = a ∧ w.descriptorCount = 1
        ∧ w.descriptorType = vk_descriptor_type k)
    ∧ ((pds1.commit bits vk_descriptor_type).binding b a).map DescriptorBinding.type = some k

/-! ## Graph compilation (declared in RenderGraph.hpp; the bodies are modelled from the spec) -/

/-- Modelled from the spec: the graph that the Graph Builder accumulates (`RenderGraph` keeps it
behind `impl`, whose type `RGImpl` is not among the sources): the name of the graph, the
passes in the order `add_pass` appended them, and the names that `attach_*` calls bound to
a value, a future or a swapchain.  Names are taken after aliases are folded into their
targets. -/
structure RenderGraph where
  name : Name
  passes : List Pass
  attached : List Name
deriving DecidableEq, Repr

/-- Modelled from the spec: the compile-time failures of the error taxonomy, each identifying
the offending resource name and pass: (a) unresolved reference, (b) write-write or read-write
race, (c) illegal divergence. -/
inductive CompileError
  | unresolved_reference (name : QualifiedName) (pass : Name)
  | race (name : QualifiedName) (pass : Name)
  | illegal_divergence (name : QualifiedName) (pass : Name)
deriving DecidableEq, Repr

/-- Modelled from the spec: a resource of a pass of the graph with scope `scope`, as it stands
in the merged graph: a name of the graph becomes the qualified name (`scope`, name), a foreign
resource keeps the qualified name it carries, and an absent rename stays absent. -/
def Resource.inlined (scope : Name) (r : Resource) : Resource :=
  { r with
    name := if r.foreign.isSome then r.name else ⟨scope, r.name.name⟩
    out_name := if r.out_name.name = Name.empty then r.out_name else ⟨scope, r.out_name.name⟩ }

/-- Modelled from the spec: `Compiler::inline_rgs` (declared in RenderGraph.hpp, body not among
the sources) merges the graphs into one: the passes of every graph, graph after graph and in
declaration order, with qualified resource names. -/
def inline_rgs (rgs : List RenderGraph) : List Pass :=
  rgs.flatMap fun g => g.passes.map fun p =>
    { p with resources := p.resources.map (Resource.inlined g.name) }

/-- Modelled from the spec: the qualified names that the graphs attach. -/
def attached_names (rgs : List RenderGraph) : List QualifiedName :=
  rgs.flatMap fun g => g.attached.map fun n => ⟨g.name, n⟩

/-- Modelled from the spec: the names a pass produces, which are the renames (`out_name`) of
its resources. -/
def Pass.produced (p : Pass) : List QualifiedName :=
  p.resources.filterMap fun r => if r.out_name.name = Name.empty then none else some r.out_name

/-- Modelled from the spec: name resolution of the Dependency Resolver.  The passes are
processed in declaration order; `known` holds the names attached or produced by the passes
processed so far; a reference to a name that is not known is the compile error that
identifies the unresolved name and the pass. -/
def resolve_names : List QualifiedName → List Pass → Except CompileError Unit
  | _, [] => Except.ok ()
  | known, p :: ps =>
    match p.resources.find? (fun r => decide (r.name ∉ known)) with
    | some r => Except.error (CompileError.unresolved_reference r.name p.name)
    | none => resolve_names (known ++ p.produced) ps

/-- Modelled from the spec: `Compiler::compile` (declared in RenderGraph.hpp, body not among the
sources), as far as name resolution decides it: the graphs are merged, the names are
resolved, and the stages that follow (synchronisation, partitioning; the compile options act
there) are the parameter `later`.  The result is the failure, or the merged passes of the
compiled graph; a failure comes with no graph. -/
def Compiler.compile (later : List Pass → Except CompileError Unit) (rgs : List RenderGraph) :
    Except CompileError (List Pass) :=
  match resolve_names (attached_names rgs) (inline_rgs rgs) with
  | Except.error e => Except.error e
  | Except.ok _ =>
    match later (inline_rgs rgs) with
    | Except.error e => Except.error e
    | Except.ok _ => Except.ok (inline_rgs rgs)

/-- The resource `r` of the pass number `k` of `passes` refers to a name that is neither
attached nor produced by an upstream pass: the name is not in `attached`, and no pass before
number `k` produces it. -/
def unresolved_reference_at (attached : List QualifiedName) (passes : List Pass) (k : Nat)
    (p : Pass) (r : Resource) : Prop :=
  passes[k]? = some p ∧ r ∈ p.resources ∧ r.name ∉ attached
    ∧ ∀ j p1, j < k → passes[j]? = some p1 → r.name ∉ p1.produced

/-! ## Sample values -/

/-- A sample table: every entry point is at address `1`, except `vkSetDebugUtilsObjectNameEXT`,
which is null. -/
def sample_pfns : FunctionPointers :=
  fun n => if n = "vkSetDebugUtilsObjectNameEXT" then 0 else 1

/-- A sample pair of X-macro lists. -/
def sample_lists : PFNLists :=
  { optional := [⟨.VUK_X, "vkSetDebugUtilsObjectNameEXT"⟩],
    required := [⟨.VUK_Y, "vkGetPhysicalDeviceProperties"⟩, ⟨.VUK_X, "vkQueueSubmit"⟩] }

/-- A sample `ContextImpl`, all counters at zero. -/
def sample_impl : ContextImpl :=
  { frame_counter := 0, unique_handle_id_counter := 0, query_id_counter := 0,
    timestamp_result_map := [], collected := [], device_vk_resource := ⟨[], []⟩ }

/-- A sample context with a graphics queue only. -/
def sample_context : Context :=
  { pfns := sample_pfns, vk_instance := 1, device := 2, physical_device := 3,
    graphics_queue_family_index := 0, compute_queue_family_index := 0,
    transfer_queue_family_index := 0,
    dedicated_graphics_queue := some ⟨1, 1, 7, 0, 100⟩,
    dedicated_compute_queue := none, dedicated_transfer_queue := none,
    graphics_queue := .dedicated_graphics_queue, compute_queue := .dedicated_graphics_queue,
    transfer_queue := .dedicated_graphics_queue, impl := some sample_impl }

/-- Sample construction parameters: a graphics and a compute queue, no transfer queue,
dynamic loading switched off. -/
def sample_params : ContextCreateParameters :=
  { vk_instance := 1, device := 2, physical_device := 3,
    graphics_queue := 7, graphics_queue_family_index := 0,
    compute_queue := 8, compute_queue_family_index := 1,
    transfer_queue := 0, transfer_queue_family_index := 4294967295,
    allow_dynamic_loading_of_vk_function_pointers := false, pointers := sample_pfns }

/-- Sample values of the `DomainFlagBits` enumerators: three queue bits and their union. -/
def sample_bits : DomainFlagBits :=
  { eGraphicsQueue := 2, eComputeQueue := 4, eTransferQueue := 8, eQueueMask := 14, eDevice := 14 }

/-- A sample constructor environment: the member `compute_queue` starts out null. -/
def sample_env : ContextEnv :=
  { lists := sample_lists, call := fun _ _ _ => 9, compute_queue_init := QueuePtr.null,
    new_impl := sample_impl, fresh := fun n => 100 + n }

/-- A sample table in which every entry point, `vkSetDebugUtilsObjectNameEXT` included, is at
address `1`. -/
def sample_debug_pfns : FunctionPointers := fun _ => 1

/-- The sample context with `vkSetDebugUtilsObjectNameEXT` loaded. -/
def sample_debug_context : Context :=
  { sample_context with pfns := sample_debug_pfns }

/-- A sample `ContextImpl` holding the results of the queries 3 and 5. -/
def sample_timestamp_impl : ContextImpl :=
  { sample_impl with timestamp_result_map := [(⟨3⟩, 500), (⟨5⟩, 700)] }

/-- The sample context with the results of the queries 3 and 5. -/
def sample_timestamp_context : Context :=
  { sample_context with impl := some sample_timestamp_impl }

/-- Sample values of the `DescriptorType` enumerators: the kinds are below 128 and the pending
bit is 128. -/
def sample_dbits : DescriptorTypeBits :=
  { eSampler := 0, eCombinedImageSampler := 1, eSampledImage := 2, eStorageImage := 3,
    eUniformBuffer := 6, eStorageBuffer := 7, eAccelerationStructureKHR := 11,
    ePendingWrite := 128 }

/-- A sample stand-in for `DescriptorBinding::vk_descriptor_type`. -/
def sample_vkdt : Nat → Nat := fun t => 1000 + t

/-- A sample descriptor binding of the given type, with empty payloads. -/
def sample_binding (type : Nat) : DescriptorBinding :=
  { type := type, image := ⟨0, 0, 0⟩, buffer := ⟨0, 0, 0⟩, as := ⟨0, ⟨0, 0, none⟩⟩ }

/-- A sample set with two bindings, of two and one array elements; the elements `(0, 1)` and
`(1, 0)` are pending, and the write list holds a stale write. -/
def sample_pds : PersistentDescriptorSet :=
  { backing_set := 77,
    wdss := [⟨35, none, 77, 5, 5, 1, 0, (5, 5), (5, 5)⟩],
    descriptor_bindings :=
      [[sample_binding 6, sample_binding (1 + 128)], [sample_binding (11 + 128)]] }

/-- A sample graph: the buffer `b` is attached, the pass `P1` writes it to `b+`, and the pass
`P2` reads `b+` and `missing_input`, which nothing attaches or produces. -/
def sample_graph : RenderGraph :=
  { name := "G",
    passes :=
      [{ name := "P1", execute_on := 2, type := PassType.eUserPass,
         resources := [Resource.mk4 "b" Resource.Type.eBuffer 1 "b+"] },
       { name := "P2", execute_on := 4, type := PassType.eUserPass,
         resources := [Resource.mk3 "b+" Resource.Type.eBuffer 2,
                       Resource.mk3 "missing_input" Resource.Type.eImage 2] }],
    attached := ["b"] }

/-! ## Theorems: Resource and Pass -/

/-- C1: two resources compare equal with `operator==` exactly when their qualified names are
equal; in particular a resource stays equal to itself when its type, access, output name,
original name, foreign graph, reference and `promoted_to_general` are all replaced. -/
theorem Resource_eq_iff_name (a b : Resource) :
    (Resource.eq a b = true ↔ a.name = b.name)
    ∧ (Resource.eq a b = false ↔ a.name ≠ b.name)
    ∧ ∀ (orig : Name) (t : Resource.Type) (ia : Access) (out : QualifiedName)
        (g : RenderGraphPtr) (r : Int) (p : Bool),
        Resource.eq a { name := a.name, original_name := orig, type := t, ia := ia,
                        out_name := out, foreign := g, reference := r,
                        promoted_to_general := p } = true := by
  refine ⟨?_, ?_, ?_⟩
  · simp [Resource.eq]
  · simp [Resource.eq]
  · intro orig t ia out g r p
    simp [Resource.eq]

/-- C2: the two in-graph constructors give the qualified name (empty scope, `n`), the type
and access passed in, the output name (empty scope, `o`) or the empty qualified name, no
foreign graph, reference 0 and `promoted_to_general` false; the foreign constructor keeps
the qualified name and records the graph. -/
theorem Resource_constructors (n o : Name) (t : Resource.Type) (a : Access)
    (g : RenderGraphPtr) (qn : QualifiedName) :
    ((Resource.mk3 n t a).name = ⟨Name.empty, n⟩
      ∧ (Resource.mk3 n t a).type = t
      ∧ (Resource.mk3 n t a).ia = a
      ∧ (Resource.mk3 n t a).out_name = QualifiedName.empty
      ∧ (Resource.mk3 n t a).foreign = none
      ∧ (Resource.mk3 n t a).reference = 0
      ∧ (Resource.mk3 n t a).promoted_to_general = false)
    ∧ ((Resource.mk4 n t a o).name = ⟨Name.empty, n⟩
      ∧ (Resource.mk4 n t a o).type = t
      ∧ (Resource.mk4 n t a o).ia = a
      ∧ (Resource.mk4 n t a o).out_name = ⟨Name.empty, o⟩
      ∧ (Resource.mk4 n t a o).foreign = none
      ∧ (Resource.mk4 n t a o).reference = 0
      ∧ (Resource.mk4 n t a o).promoted_to_general = false)
    ∧ ((Resource.mkForeign g qn t a).name = qn
      ∧ (Resource.mkForeign g qn t a).foreign = g) := by
  refine ⟨⟨rfl, rfl, rfl, rfl, rfl, rfl, rfl⟩, ⟨rfl, rfl, rfl, rfl, rfl, rfl, rfl⟩, rfl, rfl⟩

/-- C9: a default-constructed `Pass` executes on `eDevice` and is of kind `eUserPass`. -/
theorem Pass_default_domain_and_kind (bits : DomainFlagBits) :
    (Pass.default bits).execute_on = bits.eDevice
    ∧ (Pass.default bits).type = PassType.eUserPass :=
  ⟨rfl, rfl⟩

/-! ## Theorems: counters -/

/-- C3: on a live context `next_frame` moves the frame count to its successor modulo `2 ^ 64`
and calls `collect` once, with the new frame count; `get_unique_handle_id` and
`create_timestamp_query` leave the frame count as it is (and `get_frame_count` is a pure
read). -/
theorem next_frame_advances_and_collects (c : Context) (i : ContextImpl)
    (h : c.impl = some i) :
    c.get_frame_count = some i.frame_counter
    ∧ c.next_frame.bind Context.get_frame_count = some ((i.frame_counter + 1) % 2 ^ 64)
    ∧ c.next_frame.bind (fun c1 => c1.impl.map ContextImpl.collected)
        = some (i.collected ++ [(i.frame_counter + 1) % 2 ^ 64])
    ∧ c.get_unique_handle_id.bind (fun r => r.2.get_frame_count) = some i.frame_counter
    ∧ c.create_timestamp_query.bind (fun r => r.2.get_frame_count) = some i.frame_counter := by
  refine ⟨?_, ?_, ?_, ?_, ?_⟩
  · simp [Context.get_frame_count, h]
  · simp [Context.next_frame, Context.collect, Context.get_frame_count, ContextImpl.collect, h]
  · simp [Context.next_frame, Context.collect, ContextImpl.collect, h]
  · simp [Context.get_unique_handle_id, Context.get_frame_count, h]
  · simp [Context.create_timestamp_query, Context.get_frame_count, h]

/-- C3 at the sample context. -/
theorem next_frame_advances_and_collects_witness :
    sample_context.get_frame_count = some 0
    ∧ sample_context.next_frame.bind Context.get_frame_count = some ((0 + 1) % 2 ^ 64)
    ∧ sample_context.next_frame.bind (fun c1 => c1.impl.map ContextImpl.collected)
        = some ([] ++ [(0 + 1) % 2 ^ 64])
    ∧ sample_context.get_unique_handle_id.bind (fun r => r.2.get_frame_count) = some 0
    ∧ sample_context.create_timestamp_query.bind (fun r => r.2.get_frame_count) = some 0 :=
  next_frame_advances_and_collects sample_context sample_impl rfl

/-- Successors commute with reduction modulo `2 ^ 64`. -/
theorem wrap_succ_add (a k : Nat) : ((a + 1) % 2 ^ 64 + k) % 2 ^ 64 = (a + (k + 1)) % 2 ^ 64 := by
  omega

/-- Fewer than `2 ^ 64` consecutive values stay distinct after reduction modulo `2 ^ 64`. -/
theorem wrap_add_injOn (a n : Nat) (hn : n ≤ 2 ^ 64) :
    ∀ x ∈ List.range n, ∀ y ∈ List.range n,
      (a + x) % 2 ^ 64 = (a + y) % 2 ^ 64 → x = y := by
  intro x hx y hy hxy
  rw [List.mem_range] at hx hy
  omega

/-- The list of the values `(a + k) % 2 ^ 64` for `k < n`. -/
theorem wrap_range_succ (a n : Nat) (ha : a < 2 ^ 64) :
    (List.range (n + 1)).map (fun k => (a + k) % 2 ^ 64)
      = a :: (List.range n).map (fun k => ((a + 1) % 2 ^ 64 + k) % 2 ^ 64) := by
  rw [List.range_succ_eq_map, List.map_cons, List.map_map]
  congr 1
  · simpa using Nat.mod_eq_of_lt ha
  · apply List.map_congr_left
    intro k _
    simp only [Function.comp_apply]
    exact (wrap_succ_add a k).symm

/-- The ids of `n` successive calls of `get_unique_handle_id` on a live context. -/
theorem get_unique_handle_ids_eq (n : Nat) :
    ∀ (c : Context) (i : ContextImpl), c.impl = some i → i.unique_handle_id_counter < 2 ^ 64 →
      ∃ c1, c.get_unique_handle_ids n
        = some ((List.range n).map (fun k => (i.unique_handle_id_counter + k) % 2 ^ 64), c1) := by
  induction n with
  | zero => intro c i _ _; exact ⟨c, rfl⟩
  | succ n ih =>
    intro c i h hr
    have hstep : c.get_unique_handle_id = some (i.unique_handle_id_counter,
        { c with impl := some { i with
            unique_handle_id_counter := (i.unique_handle_id_counter + 1) % 2 ^ 64 } }) := by
      simp [Context.get_unique_handle_id, h]
    obtain ⟨c2, hc2⟩ := ih { c with impl := some { i with
        unique_handle_id_counter := (i.unique_handle_id_counter + 1) % 2 ^ 64 } } _ rfl
        (Nat.mod_lt _ (by norm_num))
    refine ⟨c2, ?_⟩
    rw [Context.get_unique_handle_ids, hstep]
    simp only [hc2]
    rw [wrap_range_succ _ _ hr]

/-- The queries of `n` successive calls of `create_timestamp_query` on a live context. -/
theorem create_timestamp_queries_eq (n : Nat) :
    ∀ (c : Context) (i : ContextImpl), c.impl = some i → i.query_id_counter < 2 ^ 64 →
      ∃ c1, c.create_timestamp_queries n
        = some (((List.range n).map (fun k => (i.query_id_counter + k) % 2 ^ 64)).map Query.mk,
            c1) := by
  induction n with
  | zero => intro c i _ _; exact ⟨c, rfl⟩
  | succ n ih =>
    intro c i h hr
    have hstep : c.create_timestamp_query = some (⟨i.query_id_counter⟩,
        { c with impl := some { i with
            query_id_counter := (i.query_id_counter + 1) % 2 ^ 64 } }) := by
      simp [Context.create_timestamp_query, h]
    obtain ⟨c2, hc2⟩ := ih { c with impl := some { i with
        query_id_counter := (i.query_id_counter + 1) % 2 ^ 64 } } _ rfl
        (Nat.mod_lt _ (by norm_num))
    refine ⟨c2, ?_⟩
    rw [Context.create_timestamp_queries, hstep]
    simp only [hc2]
    rw [wrap_range_succ _ _ hr]
    rfl

/-- C4: a call of `get_unique_handle_id` returns the current value of the unique-handle-id
counter and advances the counter by one; in a sequence of `n < 2 ^ 64` calls the call number
`k`, counted from `0` (the call that follows `k` earlier ones), returns
`(initial + k) % 2 ^ 64`, and the returned ids are pairwise distinct. -/
theorem get_unique_handle_id_sequence (c : Context) (i : ContextImpl) (n : Nat)
    (h : c.impl = some i) (hr : i.unique_handle_id_counter < 2 ^ 64) (hn : n < 2 ^ 64) :
    (c.get_unique_handle_id.map Prod.fst = some i.unique_handle_id_counter
      ∧ c.get_unique_handle_id.bind
          (fun r => r.2.impl.map ContextImpl.unique_handle_id_counter)
          = some ((i.unique_handle_id_counter + 1) % 2 ^ 64))
    ∧ ∃ ids c1, c.get_unique_handle_ids n = some (ids, c1)
        ∧ ids.length = n
        ∧ (∀ k, k < n → ids[k]? = some ((i.unique_handle_id_counter + k) % 2 ^ 64))
        ∧ ids.Nodup := by
  refine ⟨⟨?_, ?_⟩, ?_⟩
  · simp [Context.get_unique_handle_id, h]
  · simp [Context.get_unique_handle_id, h]
  · obtain ⟨c1, hc1⟩ := get_unique_handle_ids_eq n c i h hr
    refine ⟨_, c1, hc1, by simp, ?_, ?_⟩
    · intro k hk
      simp [List.getElem?_map, List.getElem?_range hk]
    · exact List.Nodup.map_on (wrap_add_injOn _ n (Nat.le_of_lt hn)) (List.nodup_range n)

/-- C4 at the sample context, for three calls. -/
theorem get_unique_handle_id_sequence_witness :
    (sample_context.get_unique_handle_id.map Prod.fst = some 0
      ∧ sample_context.get_unique_handle_id.bind
          (fun r => r.2.impl.map ContextImpl.unique_handle_id_counter)
          = some ((0 + 1) % 2 ^ 64))
    ∧ ∃ ids c1, sample_context.get_unique_handle_ids 3 = some (ids, c1)
        ∧ ids.length = 3
        ∧ (∀ k, k < 3 → ids[k]? = some ((0 + k) % 2 ^ 64))
        ∧ ids.Nodup :=
  get_unique_handle_id_sequence sample_context sample_impl 3 rfl (by decide) (by decide)

/-- C5: a call of `create_timestamp_query` returns a query whose id is the current value of
the query-id counter and advances that counter by one, leaving the unique-handle-id counter,
the frame counter and the stored timestamp results as they are; the queries of `n < 2 ^ 64`
successive calls have pairwise distinct ids. -/
theorem create_timestamp_query_fresh (c : Context) (i : ContextImpl) (n : Nat)
    (h : c.impl = some i) (hr : i.query_id_counter < 2 ^ 64) (hn : n < 2 ^ 64) :
    (c.create_timestamp_query.map Prod.fst = some ⟨i.query_id_counter⟩
      ∧ c.create_timestamp_query.bind (fun r => r.2.impl)
          = some { i with query_id_counter := (i.query_id_counter + 1) % 2 ^ 64 }
      ∧ c.create_timestamp_query.bind
          (fun r => r.2.impl.map ContextImpl.unique_handle_id_counter)
          = some i.unique_handle_id_counter
      ∧ c.create_timestamp_query.bind (fun r => r.2.impl.map ContextImpl.frame_counter)
          = some i.frame_counter
      ∧ c.create_timestamp_query.bind
          (fun r => r.2.impl.map ContextImpl.timestamp_result_map)
          = some i.timestamp_result_map)
    ∧ ∃ qs c1, c.create_timestamp_queries n = some (qs, c1)
        ∧ qs.length = n
        ∧ (∀ k, k < n → qs[k]? = some ⟨(i.query_id_counter + k) % 2 ^ 64⟩)
        ∧ (qs.map Query.id).Nodup := by
  refine ⟨⟨?_, ?_, ?_, ?_, ?_⟩, ?_⟩
  · simp [Context.create_timestamp_query, h]
  · simp [Context.create_timestamp_query, h]
  · simp [Context.create_timestamp_query, h]
  · simp [Context.create_timestamp_query, h]
  · simp [Context.create_timestamp_query, h]
  · obtain ⟨c1, hc1⟩ := create_timestamp_queries_eq n c i h hr
    refine ⟨_, c1, hc1, by simp, ?_, ?_⟩
    · intro k hk
      simp [List.getElem?_map, List.getElem?_range hk]
    · rw [List.map_map, List.map_map]
      exact List.Nodup.map_on (wrap_add_injOn _ n (Nat.le_of_lt hn)) (List.nodup_range n)

/-- C5 at the sample context, for three calls. -/
theorem create_timestamp_query_fresh_witness :
    (sample_context.create_timestamp_query.map Prod.fst = some ⟨0⟩
      ∧ sample_context.create_timestamp_query.bind (fun r => r.2.impl)
          = some { sample_impl with query_id_counter := (0 + 1) % 2 ^ 64 }
      ∧ sample_context.create_timestamp_query.bind
          (fun r => r.2.impl.map ContextImpl.unique_handle_id_counter) = some 0
      ∧ sample_context.create_timestamp_query.bind
          (fun r => r.2.impl.map ContextImpl.frame_counter) = some 0
      ∧ sample_context.create_timestamp_query.bind
          (fun r => r.2.impl.map ContextImpl.timestamp_result_map) = some [])
    ∧ ∃ qs c1, sample_context.create_timestamp_queries 3 = some (qs, c1)
        ∧ qs.length = 3
        ∧ (∀ k, k < 3 → qs[k]? = some ⟨(0 + k) % 2 ^ 64⟩)
        ∧ (qs.map Query.id).Nodup :=
  create_timestamp_query_fresh sample_context sample_impl 3 rfl (by decide) (by decide)

/-! ## Theorems: domains and queues -/

/-- Masking with three bits gives the first of them exactly when that bit is set and the other
two are clear. -/
theorem and_queue_mask_eq_two_pow (d a b e : Nat) (hab : a ≠ b) (hae : a ≠ e) :
    d &&& (2 ^ a ||| 2 ^ b ||| 2 ^ e) = 2 ^ a
      ↔ (d.testBit a = true ∧ d.testBit b = false ∧ d.testBit e = false) := by
  constructor
  · intro h
    have h1 := congrArg (fun x => Nat.testBit x a) h
    have h2 := congrArg (fun x => Nat.testBit x b) h
    have h3 := congrArg (fun x => Nat.testBit x e) h
    simp only [Nat.testBit_and, Nat.testBit_or, Nat.testBit_two_pow] at h1 h2 h3
    simp [hab, hae] at h1 h2 h3
    simp [h1, h2, h3]
  · rintro ⟨h1, h2, h3⟩
    apply Nat.eq_of_testBit_eq
    intro n
    simp only [Nat.testBit_and, Nat.testBit_or, Nat.testBit_two_pow]
    by_cases hna : a = n
    · subst hna; simp [h1]
    · by_cases hnb : b = n
      · subst hnb; simp [h2, hna]
      · by_cases hne : e = n
        · subst hne; simp [h3, hna]
        · simp [hna, hnb, hne]

/-- C6: when the queue bits of a domain are exactly `eGraphicsQueue`, `eComputeQueue` or
`eTransferQueue`, `domain_to_queue_index` returns the graphics, compute or transfer queue
family index and `domain_to_queue` the graphics, compute or transfer queue; both results
depend on the queue bits only, and `domain_to_queue_family_index` is `domain_to_queue_index`. -/
theorem domain_to_queue_by_queue_bits (bits : DomainFlagBits) (c : Context)
    (hd : bits.distinct_queues) :
    (∀ d : DomainFlags, d &&& bits.eQueueMask = bits.eGraphicsQueue →
        c.domain_to_queue_index bits d = Checked.ok c.graphics_queue_family_index
        ∧ c.domain_to_queue bits d = Checked.ok c.graphics_queue)
    ∧ (∀ d : DomainFlags, d &&& bits.eQueueMask = bits.eComputeQueue →
        c.domain_to_queue_index bits d = Checked.ok c.compute_queue_family_index
        ∧ c.domain_to_queue bits d = Checked.ok c.compute_queue)
    ∧ (∀ d : DomainFlags, d &&& bits.eQueueMask = bits.eTransferQueue →
        c.domain_to_queue_index bits d = Checked.ok c.transfer_queue_family_index
        ∧ c.domain_to_queue bits d = Checked.ok c.transfer_queue)
    ∧ (∀ d1 d2 : DomainFlags, d1 &&& bits.eQueueMask = d2 &&& bits.eQueueMask →
        c.domain_to_queue_index bits d1 = c.domain_to_queue_index bits d2
        ∧ c.domain_to_queue bits d1 = c.domain_to_queue bits d2)
    ∧ (∀ d : DomainFlags,
        c.domain_to_queue_family_index bits d = c.domain_to_queue_index bits d) := by
  obtain ⟨hgc, hgt, hct⟩ := hd
  refine ⟨?_, ?_, ?_, ?_, ?_⟩
  · intro d h
    simp [Context.domain_to_queue_index, Context.domain_to_queue, h]
  · intro d h
    simp [Context.domain_to_queue_index, Context.domain_to_queue, h, Ne.symm hgc]
  · intro d h
    simp [Context.domain_to_queue_index, Context.domain_to_queue, h, Ne.symm hgt, Ne.symm hct]
  · intro d1 d2 h
    simp [Context.domain_to_queue_index, Context.domain_to_queue, h]
  · intro d
    rfl

/-- C6 at the sample context and enumerator values. -/
theorem domain_to_queue_by_queue_bits_witness :
    sample_bits.distinct_queues
    ∧ (∀ d : DomainFlags, d &&& sample_bits.eQueueMask = sample_bits.eGraphicsQueue →
        sample_context.domain_to_queue_index sample_bits d
          = Checked.ok sample_context.graphics_queue_family_index
        ∧ sample_context.domain_to_queue sample_bits d
          = Checked.ok sample_context.graphics_queue)
    ∧ (∀ d : DomainFlags, d &&& sample_bits.eQueueMask = sample_bits.eComputeQueue →
        sample_context.domain_to_queue_index sample_bits d
          = Checked.ok sample_context.compute_queue_family_index
        ∧ sample_context.domain_to_queue sample_bits d
          = Checked.ok sample_context.compute_queue)
    ∧ (∀ d : DomainFlags, d &&& sample_bits.eQueueMask = sample_bits.eTransferQueue →
        sample_context.domain_to_queue_index sample_bits d
          = Checked.ok sample_context.transfer_queue_family_index
        ∧ sample_context.domain_to_queue sample_bits d
          = Checked.ok sample_context.transfer_queue)
    ∧ (∀ d1 d2 : DomainFlags, d1 &&& sample_bits.eQueueMask = d2 &&& sample_bits.eQueueMask →
        sample_context.domain_to_queue_index sample_bits d1
          = sample_context.domain_to_queue_index sample_bits d2
        ∧ sample_context.domain_to_queue sample_bits d1
          = sample_context.domain_to_queue sample_bits d2)
    ∧ (∀ d : DomainFlags,
        sample_context.domain_to_queue_family_index sample_bits d
          = sample_context.domain_to_queue_index sample_bits d) :=
  ⟨by decide, domain_to_queue_by_queue_bits sample_bits sample_context (by decide)⟩

/-- C7: `domain_to_queue` and `domain_to_queue_index` reach the failing assertion of the
`default:` branch exactly when the queue bits of the domain are none of `eGraphicsQueue`,
`eComputeQueue`, `eTransferQueue`; when these three are distinct single bits and `eQueueMask`
is their union, that is exactly when the domain has no queue bit or more than one, and with
exactly one queue bit the assertion is not reached. -/
theorem domain_to_queue_asserts_iff (bits : DomainFlagBits) (c : Context) (d : DomainFlags) :
    ((c.domain_to_queue bits d).asserts = true
        ↔ (d &&& bits.eQueueMask ≠ bits.eGraphicsQueue
          ∧ d &&& bits.eQueueMask ≠ bits.eComputeQueue
          ∧ d &&& bits.eQueueMask ≠ bits.eTransferQueue))
    ∧ ((c.domain_to_queue_index bits d).asserts = true
        ↔ (d &&& bits.eQueueMask ≠ bits.eGraphicsQueue
          ∧ d &&& bits.eQueueMask ≠ bits.eComputeQueue
          ∧ d &&& bits.eQueueMask ≠ bits.eTransferQueue))
    ∧ (∀ g q t : Nat, g ≠ q → g ≠ t → q ≠ t →
        bits.eGraphicsQueue = 2 ^ g → bits.eComputeQueue = 2 ^ q →
        bits.eTransferQueue = 2 ^ t → bits.eQueueMask = 2 ^ g ||| 2 ^ q ||| 2 ^ t →
        ((c.domain_to_queue bits d).asserts = true ↔ queue_bit_count g q t d ≠ 1)
        ∧ ((c.domain_to_queue_index bits d).asserts = true ↔ queue_bit_count g q t d ≠ 1)
        ∧ (queue_bit_count g q t d = 1 →
            (c.domain_to_queue bits d).asserts = false
            ∧ (c.domain_to_queue_index bits d).asserts = false)) := by
  have hq : (c.domain_to_queue bits d).asserts = true
      ↔ (d &&& bits.eQueueMask ≠ bits.eGraphicsQueue
        ∧ d &&& bits.eQueueMask ≠ bits.eComputeQueue
        ∧ d &&& bits.eQueueMask ≠ bits.eTransferQueue) := by
    simp only [Context.domain_to_queue]
    split_ifs <;> simp [Checked.asserts, *]
  have hi : (c.domain_to_queue_index bits d).asserts = true
      ↔ (d &&& bits.eQueueMask ≠ bits.eGraphicsQueue
        ∧ d &&& bits.eQueueMask ≠ bits.eComputeQueue
        ∧ d &&& bits.eQueueMask ≠ bits.eTransferQueue) := by
    simp only [Context.domain_to_queue_index]
    split_ifs <;> simp [Checked.asserts, *]
  refine ⟨hq, hi, ?_⟩
  intro g q t hgq hgt hqt hG hC hT hM
  have eG := and_queue_mask_eq_two_pow d g q t hgq hgt
  have eC : d &&& (2 ^ g ||| 2 ^ q ||| 2 ^ t) = 2 ^ q
      ↔ (d.testBit q = true ∧ d.testBit g = false ∧ d.testBit t = false) := by
    have := and_queue_mask_eq_two_pow d q g t (Ne.symm hgq) hqt
    rwa [Nat.lor_comm (2 ^ q) (2 ^ g)] at this
  have eT : d &&& (2 ^ g ||| 2 ^ q ||| 2 ^ t) = 2 ^ t
      ↔ (d.testBit t = true ∧ d.testBit g = false ∧ d.testBit q = false) := by
    have := and_queue_mask_eq_two_pow d t g q (Ne.symm hgt) (Ne.symm hqt)
    rwa [Nat.lor_assoc, Nat.lor_comm (2 ^ t)] at this
  have key : (d &&& bits.eQueueMask ≠ bits.eGraphicsQueue
        ∧ d &&& bits.eQueueMask ≠ bits.eComputeQueue
        ∧ d &&& bits.eQueueMask ≠ bits.eTransferQueue) ↔ queue_bit_count g q t d ≠ 1 := by
    rw [hM, hG, hC, hT, Ne, Ne, Ne, eG, eC, eT]
    unfold queue_bit_count
    cases d.testBit g <;> cases d.testBit q <;> cases d.testBit t <;> simp
  refine ⟨hq.trans key, hi.trans key, ?_⟩
  intro h1
  have hnq : ¬ (c.domain_to_queue bits d).asserts = true := fun h => (hq.trans key).1 h h1
  have hni : ¬ (c.domain_to_queue_index bits d).asserts = true :=
    fun h => (hi.trans key).1 h h1
  exact ⟨by simpa using hnq, by simpa using hni⟩

/-- C7 at the sample enumerator values, for a domain with the graphics and compute bits. -/
theorem domain_to_queue_asserts_iff_witness :
    ((sample_context.domain_to_queue sample_bits 6).asserts = true
        ↔ queue_bit_count 1 2 3 6 ≠ 1)
    ∧ ((sample_context.domain_to_queue_index sample_bits 6).asserts = true
        ↔ queue_bit_count 1 2 3 6 ≠ 1)
    ∧ (queue_bit_count 1 2 3 6 = 1 →
        (sample_context.domain_to_queue sample_bits 6).asserts = false
        ∧ (sample_context.domain_to_queue_index sample_bits 6).asserts = false) :=
  (domain_to_queue_asserts_iff sample_bits sample_context 6).2.2 1 2 3
    (by decide) (by decide) (by decide) rfl rfl rfl (by decide)

/-! ## Theorems: function pointers -/

/-- The fold of `check_pfns` is true exactly when it starts true and every entry is set. -/
theorem check_fold_eq_true_iff (pfns : FunctionPointers) (l : List PFNEntry) :
    ∀ b : Bool, l.foldl (fun valid e => valid && decide (pfns e.name ≠ 0)) b = true
      ↔ (b = true ∧ ∀ e ∈ l, pfns e.name ≠ 0) := by
  induction l with
  | nil => intro b; simp
  | cons x xs ih =>
    intro b
    rw [List.foldl_cons, ih]
    simp only [Bool.and_eq_true, decide_eq_true_eq, List.mem_cons, forall_eq_or_imp]
    tauto

/-- The function `check_pfns` succeeds exactly when every required entry is set. -/
theorem check_pfns_eq_true_iff (lists : PFNLists) (pfns : FunctionPointers) :
    check_pfns lists pfns = true ↔ ∀ e ∈ lists.required, pfns e.name ≠ 0 := by
  unfold check_pfns
  rw [check_fold_eq_true_iff]
  simp

/-- One macro expansion leaves an entry that is set as it is. -/
theorem load_pfn_entry_keeps (call : ProcAddrCall) (inst device : Nat) (pfns : FunctionPointers)
    (e : PFNEntry) (n : String) (hn : pfns n ≠ 0) :
    load_pfn_entry call inst device pfns e n = pfns n := by
  unfold load_pfn_entry
  split_ifs with h0
  · have hne : n ≠ e.name := fun heq => hn (heq ▸ h0)
    cases e.kind <;> simp [Function.update_noteq hne]
  · rfl

/-- The loop of `load_pfns_dynamic` leaves an entry that is set as it is. -/
theorem load_fold_keeps (call : ProcAddrCall) (inst device : Nat) (l : List PFNEntry) :
    ∀ (pfns : FunctionPointers) (n : String), pfns n ≠ 0 →
      l.foldl (load_pfn_entry call inst device) pfns n = pfns n := by
  induction l with
  | nil => intro pfns n _; rfl
  | cons x xs ih =>
    intro pfns n hn
    rw [List.foldl_cons]
    have hx := load_pfn_entry_keeps call inst device pfns x n hn
    rw [ih _ n (by rw [hx]; exact hn), hx]

/-- C8: `load_pfns` never changes an entry of the table that was set on entry, and when every
required entry was set on entry it leaves the whole table as it is and returns `true`,
whatever `allow_dynamic_loading_of_vk_function_pointers` and the other parameters are. -/
theorem load_pfns_keeps_user_pointers (lists : PFNLists) (call : ProcAddrCall)
    (params : ContextCreateParameters) (pfns : FunctionPointers) :
    (∀ n : String, pfns n ≠ 0 → (load_pfns lists call params pfns).2 n = pfns n)
    ∧ ((∀ e ∈ lists.required, pfns e.name ≠ 0) →
        load_pfns lists call params pfns = (true, pfns)) := by
  constructor
  · intro n hn
    unfold load_pfns
    split_ifs
    · rfl
    · exact load_fold_keeps call params.vk_instance params.device _ pfns n hn
    · rfl
  · intro hall
    unfold load_pfns
    rw [if_pos ((check_pfns_eq_true_iff lists pfns).2 hall)]

/-- C8 at the sample table, whose required entries are all set. -/
theorem load_pfns_keeps_user_pointers_witness :
    (∀ e ∈ sample_lists.required, sample_pfns e.name ≠ 0)
    ∧ load_pfns sample_lists (fun _ _ _ => 9) sample_params sample_pfns = (true, sample_pfns) :=
  ⟨by decide,
    (load_pfns_keeps_user_pointers sample_lists (fun _ _ _ => 9) sample_params sample_pfns).2
      (by decide)⟩

/-! ## Theorems: construction and destruction -/

/-- C10: constructing a `Context` allocates one timeline semaphore for the graphics queue, one
more iff a dedicated compute queue is supplied and one more iff a dedicated transfer queue is
supplied (three at most); the semaphores are the submit-sync semaphores of the queues the
context holds, and destroying the context deallocates exactly these, as many as were
allocated.  The statement is about the context the constructor body builds, whether or not
`assert(pfn_load_success)` holds. -/
theorem construct_destruct_semaphores (env : ContextEnv) (params : ContextCreateParameters) :
    ∃ (i : ContextImpl) (sems : List TimelineSemaphore) (dev : DeviceVkResource),
      (Context.construct env params).value.impl = some i
      ∧ i.device_vk_resource.allocated = env.new_impl.device_vk_resource.allocated ++ sems
      ∧ i.device_vk_resource.deallocated = env.new_impl.device_vk_resource.deallocated
      ∧ sems.length
          = 1 + (if params.compute_queue ≠ VK_NULL_HANDLE
                  ∧ params.compute_queue_family_index ≠ VK_QUEUE_FAMILY_IGNORED then 1 else 0)
              + (if params.transfer_queue ≠ VK_NULL_HANDLE
                  ∧ params.transfer_queue_family_index ≠ VK_QUEUE_FAMILY_IGNORED then 1 else 0)
      ∧ sems.length ≤ 3
      ∧ (Context.construct env params).value.dedicated_graphics_queue.isSome = true
      ∧ ((Context.construct env params).value.dedicated_compute_queue.isSome = true
          ↔ (params.compute_queue ≠ VK_NULL_HANDLE
              ∧ params.compute_queue_family_index ≠ VK_QUEUE_FAMILY_IGNORED))
      ∧ ((Context.construct env params).value.dedicated_transfer_queue.isSome = true
          ↔ (params.transfer_queue ≠ VK_NULL_HANDLE
              ∧ params.transfer_queue_family_index ≠ VK_QUEUE_FAMILY_IGNORED))
      ∧ sems = ((Context.construct env params).value.dedicated_graphics_queue.toList
                ++ (Context.construct env params).value.dedicated_compute_queue.toList
                ++ (Context.construct env params).value.dedicated_transfer_queue.toList).map
                  Queue.get_submit_sync
      ∧ (Context.construct env params).value.destruct = some dev
      ∧ dev.allocated = i.device_vk_resource.allocated
      ∧ dev.deallocated = env.new_impl.device_vk_resource.deallocated ++ sems := by
  unfold Context.construct
  generalize load_pfns env.lists env.call params params.pointers = r
  obtain ⟨ok, pfns⟩ := r
  by_cases hc : params.compute_queue ≠ VK_NULL_HANDLE
      ∧ params.compute_queue_family_index ≠ VK_QUEUE_FAMILY_IGNORED <;>
  by_cases ht : params.transfer_queue ≠ VK_NULL_HANDLE
      ∧ params.transfer_queue_family_index ≠ VK_QUEUE_FAMILY_IGNORED <;>
  cases ok <;>
  simp [hc, ht, Checked.value, Context.destruct, DeviceVkResource.allocate_timeline_semaphore,
    DeviceVkResource.deallocate_timeline_semaphore, Queue.get_submit_sync]

/-! ## Theorems: queue family indices and moves -/

/-- For whatever value the member `compute_queue` holds before the constructor body assigns
it, some construction parameters make the transfer family index differ from the family
index of the queue that `transfer_queue` points at. -/
theorem construct_transfer_family_mismatch_any_init (env : ContextEnv) :
    ∃ (params : ContextCreateParameters) (q : Queue),
      ((Context.construct env params).value.deref_queue
          (Context.construct env params).value.transfer_queue) = some q
      ∧ q.family_index ≠ (Context.construct env params).value.transfer_queue_family_index := by
  by_cases h : env.compute_queue_init = QueuePtr.null
  · refine ⟨{ sample_params with compute_queue := 8, compute_queue_family_index := 1 }, ?_⟩
    unfold Context.construct
    generalize load_pfns env.lists env.call _ _ = r
    obtain ⟨ok, pfns⟩ := r
    cases ok <;>
    simp [sample_params, Checked.value, Context.deref_queue, VK_NULL_HANDLE,
      VK_QUEUE_FAMILY_IGNORED, h, DeviceVkResource.allocate_timeline_semaphore]
  · refine ⟨{ sample_params with compute_queue := 0, compute_queue_family_index := 5 }, ?_⟩
    unfold Context.construct
    generalize load_pfns env.lists env.call _ _ = r
    obtain ⟨ok, pfns⟩ := r
    cases ok <;>
    simp [sample_params, Checked.value, Context.deref_queue, VK_NULL_HANDLE,
      VK_QUEUE_FAMILY_IGNORED, h, DeviceVkResource.allocate_timeline_semaphore]

/-- C15 (violated by the code): with a dedicated compute queue of family 1 and no dedicated
transfer queue, the constructed context answers the transfer domain with family index 0
from `domain_to_queue_index`, while `domain_to_queue` answers it with the compute queue,
which was created with family index 1. -/
theorem construct_transfer_family_index_disagrees :
    (Context.construct sample_env sample_params).asserts = false
    ∧ (Context.construct sample_env sample_params).value.domain_to_queue_index sample_bits
        sample_bits.eTransferQueue = Checked.ok 0
    ∧ (Context.construct sample_env sample_params).value.domain_to_queue sample_bits
        sample_bits.eTransferQueue = Checked.ok QueuePtr.dedicated_compute_queue
    ∧ ((Context.construct sample_env sample_params).value.deref_queue
        QueuePtr.dedicated_compute_queue).map Queue.family_index = some 1 := by
  refine ⟨by decide, by decide, by decide, by decide⟩

/-- A move writes the handles and queue family indices of the source into the destination and
leaves the function-pointer table of the destination as it was. -/
theorem move_body_fields (self o c : Context) (h : Context.move_body self o = some c) :
    c.pfns = self.pfns
    ∧ c.graphics_queue_family_index = o.graphics_queue_family_index
    ∧ c.compute_queue_family_index = o.compute_queue_family_index
    ∧ c.transfer_queue_family_index = o.transfer_queue_family_index
    ∧ c.impl = o.impl := by
  unfold Context.move_body at h
  split at h
  · rename_i impl g himpl hg
    simp only [Option.some.injEq] at h
    subst h
    exact ⟨rfl, rfl, rfl, rfl, himpl.symm⟩
  · exact absurd h (by simp)

/-- C16 (violated by the code): the source context has `vkSetDebugUtilsObjectNameEXT` loaded,
so `debug_enabled()` is true on it; after move-assigning it to a context whose own entry is
null, and after move-constructing from it with a default table of null pointers, the
destination answers `debug_enabled()` with false.  The queue family indices do carry over. -/
theorem move_loses_debug_enabled :
    sample_debug_context.debug_enabled = true
    ∧ (Context.move_assign sample_context sample_debug_context).map Context.debug_enabled
        = some false
    ∧ (Context.move_construct (fun _ => 0) sample_debug_context).map Context.debug_enabled
        = some false
    ∧ (Context.move_assign sample_context sample_debug_context).map
        (fun c => (c.domain_to_queue_index sample_bits 2, c.domain_to_queue_index sample_bits 4,
          c.domain_to_queue_index sample_bits 8))
        = some (sample_debug_context.domain_to_queue_index sample_bits 2,
            sample_debug_context.domain_to_queue_index sample_bits 4,
            sample_debug_context.domain_to_queue_index sample_bits 8) := by
  refine ⟨by decide, by decide, by decide, by decide⟩

/-! ## Theorems: timestamp results -/

/-- Erasing the entry found for `q` leaves the lookups of the other queries as they are. -/
theorem timestamp_find_eraseP_of_ne (m : List (Query × Nat)) (q q1 : Query) (hne : q1 ≠ q) :
    timestamp_find (m.eraseP (fun e => decide (e.1 = q))) q1 = timestamp_find m q1 := by
  induction m with
  | nil => rfl
  | cons x xs ih =>
    unfold timestamp_find at ih ⊢
    by_cases hx : x.1 = q
    · have hx1 : ¬ x.1 = q1 := fun h => hne (h.symm.trans hx)
      simp [List.eraseP_cons, List.find?_cons, hx, Ne.symm hne]
    · by_cases hx1 : x.1 = q1
      · simp [List.eraseP_cons, List.find?_cons, hx, hx1, hne]
      · simp [List.eraseP_cons, List.find?_cons, hx, hx1, ih]

/-- With one entry per key, nothing is found for `q` once its entry is erased. -/
theorem timestamp_find_eraseP_self (m : List (Query × Nat)) (q : Query)
    (hu : (m.map Prod.fst).Nodup) :
    timestamp_find (m.eraseP (fun e => decide (e.1 = q))) q = none := by
  induction m with
  | nil => rfl
  | cons x xs ih =>
    rw [List.map_cons, List.nodup_cons] at hu
    unfold timestamp_find at ih ⊢
    by_cases hx : x.1 = q
    · simp only [List.eraseP_cons, hx, decide_True, cond_true]
      rw [List.find?_eq_none]
      intro e he
      have : e.1 ∈ xs.map Prod.fst := List.mem_map_of_mem Prod.fst he
      have hne : e.1 ≠ q := fun h => hu.1 (hx ▸ h ▸ this)
      simpa using hne
    · simp [List.eraseP_cons, hx, ih hu.2]

/-- The stored results are the entry found for `q` together with what is left after erasing
it. -/
theorem timestamp_perm_eraseP (m : List (Query × Nat)) (q : Query) (e : Query × Nat)
    (he : timestamp_find m q = some e) :
    m.Perm (e :: m.eraseP (fun e => decide (e.1 = q))) := by
  induction m with
  | nil => simp [timestamp_find] at he
  | cons x xs ih =>
    unfold timestamp_find at he ih
    by_cases hx : x.1 = q
    · have hxe : x = e := by simpa [List.find?_cons, hx] using he
      subst hxe
      simp [List.eraseP_cons, hx]
    · have he1 : List.find? (fun e => decide (e.1 = q)) xs = some e := by
        simpa [List.find?_cons, hx] using he
      simp only [List.eraseP_cons, hx, decide_False, cond_false]
      exact ((ih he1).cons x).trans (List.Perm.swap e x _)

/-- C20: `retrieve_timestamp(q)` returns a value exactly when `is_timestamp_available(q)` is
true, and the value is the stored one; it then removes the entry of `q` only, so that `q` is
no longer available, a repeated `retrieve_timestamp(q)` returns nothing, and every other
query is found as before; when `q` is not available it returns nothing and leaves the
context as it is.  `is_timestamp_available` only reads. -/
theorem retrieve_timestamp_removes_only_q (c : Context) (i : ContextImpl) (q : Query)
    (h : c.impl = some i) (hu : i.timestamp_keys_unique) :
    c.is_timestamp_available q = some (timestamp_find i.timestamp_result_map q).isSome
    ∧ (c.retrieve_timestamp q).map (fun r => r.1.isSome) = c.is_timestamp_available q
    ∧ (∀ e, timestamp_find i.timestamp_result_map q = some e →
        ∃ c1 i1, c.retrieve_timestamp q = some (some e.2, c1)
          ∧ c1.impl = some i1
          ∧ i1 = { i with timestamp_result_map := i1.timestamp_result_map }
          ∧ i.timestamp_result_map.Perm (e :: i1.timestamp_result_map)
          ∧ c1.is_timestamp_available q = some false
          ∧ c1.retrieve_timestamp q = some (none, c1)
          ∧ ∀ q1, q1 ≠ q →
              timestamp_find i1.timestamp_result_map q1
                = timestamp_find i.timestamp_result_map q1)
    ∧ (timestamp_find i.timestamp_result_map q = none →
        c.retrieve_timestamp q = some (none, c)) := by
  refine ⟨?_, ?_, ?_, ?_⟩
  · simp [Context.is_timestamp_available, h]
  · cases hf : timestamp_find i.timestamp_result_map q <;>
      simp [Context.retrieve_timestamp, Context.is_timestamp_available, h, hf]
  · intro e he
    have hself := timestamp_find_eraseP_self i.timestamp_result_map q hu
    let m1 := i.timestamp_result_map.eraseP (fun e => decide (e.1 = q))
    let i1 : ContextImpl := { i with timestamp_result_map := m1 }
    refine ⟨{ c with impl := some i1 }, i1, ?_, rfl, rfl, ?_, ?_, ?_, ?_⟩
    · simp [Context.retrieve_timestamp, h, he]
    · exact timestamp_perm_eraseP _ q e he
    · simp [Context.is_timestamp_available, hself]
    · simp [Context.retrieve_timestamp, hself]
    · intro q1 hq1
      exact timestamp_find_eraseP_of_ne _ q q1 hq1
  · intro hnone
    simp [Context.retrieve_timestamp, h, hnone]

/-- C20 at the sample context that holds the results of the queries 3 and 5, for query 3. -/
theorem retrieve_timestamp_removes_only_q_witness :
    sample_timestamp_context.is_timestamp_available ⟨3⟩
      = some (timestamp_find sample_timestamp_impl.timestamp_result_map ⟨3⟩).isSome
    ∧ (sample_timestamp_context.retrieve_timestamp ⟨3⟩).map (fun r => r.1.isSome)
        = sample_timestamp_context.is_timestamp_available ⟨3⟩
    ∧ (∀ e, timestamp_find sample_timestamp_impl.timestamp_result_map ⟨3⟩ = some e →
        ∃ c1 i1, sample_timestamp_context.retrieve_timestamp ⟨3⟩ = some (some e.2, c1)
          ∧ c1.impl = some i1
          ∧ i1 = { sample_timestamp_impl with timestamp_result_map := i1.timestamp_result_map }
          ∧ sample_timestamp_impl.timestamp_result_map.Perm (e :: i1.timestamp_result_map)
          ∧ c1.is_timestamp_available ⟨3⟩ = some false
          ∧ c1.retrieve_timestamp ⟨3⟩ = some (none, c1)
          ∧ ∀ q1, q1 ≠ (⟨3⟩ : Query) →
              timestamp_find i1.timestamp_result_map q1
                = timestamp_find sample_timestamp_impl.timestamp_result_map q1)
    ∧ (timestamp_find sample_timestamp_impl.timestamp_result_map ⟨3⟩ = none →
        sample_timestamp_context.retrieve_timestamp ⟨3⟩
          = some (none, sample_timestamp_context)) :=
  retrieve_timestamp_removes_only_q sample_timestamp_context sample_timestamp_impl ⟨3⟩ rfl
    (by unfold ContextImpl.timestamp_keys_unique; decide)

/-! ## Theorems: persistent descriptor sets -/

/-- The low eight bits of a number. -/
theorem testBit_u8 (x i : Nat) : (u8 x).testBit i = (decide (i < 8) && x.testBit i) := by
  unfold u8
  exact Nat.testBit_mod_two_pow x 8 i

/-- The bits of `255`. -/
theorem testBit_255 (i : Nat) : (255 : Nat).testBit i = decide (i < 8) := by
  have h := Nat.testBit_two_pow_sub_one 8 i
  simpa using h

/-- A type whose pending bit was cleared is not pending. -/
theorem pending_write_clear (bits : DescriptorTypeBits) (t : Nat) :
    pending_write bits (clear_pending_write bits t) = false := by
  unfold pending_write clear_pending_write
  have h : u8 (u8 t &&& (u8 bits.ePendingWrite ^^^ 255)) &&& u8 bits.ePendingWrite = 0 := by
    apply Nat.eq_of_testBit_eq
    intro i
    simp only [Nat.testBit_and, Nat.testBit_xor, testBit_u8, testBit_255, Nat.zero_testBit]
    cases decide (i < 8) <;> cases t.testBit i <;> cases bits.ePendingWrite.testBit i <;> rfl
  simp [h]

/-- Clearing the pending bit twice is clearing it once. -/
theorem clear_pending_write_idem (bits : DescriptorTypeBits) (t : Nat) :
    clear_pending_write bits (clear_pending_write bits t) = clear_pending_write bits t := by
  unfold clear_pending_write
  apply Nat.eq_of_testBit_eq
  intro i
  simp only [Nat.testBit_and, Nat.testBit_xor, testBit_u8, testBit_255]
  cases decide (i < 8) <;> cases t.testBit i <;> cases bits.ePendingWrite.testBit i <;> rfl

/-- A kind that shares no bit with a non-zero pending bit is pending once the bit is set, and
is read back when the bit is cleared. -/
theorem set_then_clear_pending (bits : DescriptorTypeBits) (k : Nat) (hk : bits.kind_ok k) :
    pending_write bits (u8 k ||| u8 bits.ePendingWrite) = true
    ∧ clear_pending_write bits (u8 k ||| u8 bits.ePendingWrite) = k := by
  obtain ⟨hp, hp0, hk256, hdisj⟩ := hk
  have hup : u8 bits.ePendingWrite = bits.ePendingWrite := Nat.mod_eq_of_lt hp
  have huk : u8 k = k := Nat.mod_eq_of_lt hk256
  have hbit : ∀ i, (k.testBit i && bits.ePendingWrite.testBit i) = false := by
    intro i
    have := congrArg (fun x => Nat.testBit x i) hdisj
    simpa using this
  have hk8 : ∀ i, k.testBit i = true → i < 8 := by
    intro i hi
    by_contra hge
    have hlt : k < 2 ^ i := lt_of_lt_of_le hk256
      (by simpa using Nat.pow_le_pow_right (by norm_num : 0 < 2) (Nat.le_of_not_lt hge))
    rw [Nat.testBit_lt_two_pow hlt] at hi
    exact absurd hi (by simp)
  constructor
  · unfold pending_write
    rw [hup, huk]
    have : u8 (k ||| bits.ePendingWrite) &&& bits.ePendingWrite = bits.ePendingWrite := by
      apply Nat.eq_of_testBit_eq
      intro i
      simp only [Nat.testBit_and, Nat.testBit_or, testBit_u8]
      by_cases h8 : i < 8
      · cases k.testBit i <;> cases bits.ePendingWrite.testBit i <;> simp [h8]
      · have hlt : bits.ePendingWrite < 2 ^ i := lt_of_lt_of_le hp
          (by simpa using Nat.pow_le_pow_right (by norm_num : 0 < 2) (Nat.le_of_not_lt h8))
        simp [h8, Nat.testBit_lt_two_pow hlt]
    simp [this, hp0]
  · unfold clear_pending_write
    rw [hup, huk]
    apply Nat.eq_of_testBit_eq
    intro i
    simp only [Nat.testBit_and, Nat.testBit_or, Nat.testBit_xor, testBit_u8, testBit_255]
    have hb := hbit i
    have h8 := hk8 i
    by_cases hi : i < 8
    · cases hkb : k.testBit i <;> cases hpb : bits.ePendingWrite.testBit i <;>
        simp_all
    · cases hkb : k.testBit i
      · simp [hi]
      · exact absurd (h8 hkb) hi

/-- The write that the loop body pushes. -/
theorem commit_binding_snd (bits : DescriptorTypeBits) (vkdt : Nat → Nat) (bs i j : Nat)
    (e : DescriptorBinding) :
    (commit_binding bits vkdt bs i j e).2
      = if pending_write bits e.type = true then
          some (commit_write bits vkdt bs i j (clear_pending_write bits e.type))
        else none := by
  unfold commit_binding
  split_ifs <;> rfl

/-- The type that the loop body leaves in the binding. -/
theorem commit_binding_fst_type (bits : DescriptorTypeBits) (vkdt : Nat → Nat) (bs i j : Nat)
    (e : DescriptorBinding) :
    (commit_binding bits vkdt bs i j e).1.type
      = if pending_write bits e.type = true then clear_pending_write bits e.type
        else e.type := by
  unfold commit_binding
  by_cases hp : pending_write bits e.type = true
  · by_cases ha : clear_pending_write bits e.type = bits.eAccelerationStructureKHR <;>
      simp [hp, ha]
  · simp [hp]

/-- The loop body leaves a binding that is not pending as it is. -/
theorem commit_binding_of_not_pending (bits : DescriptorTypeBits) (vkdt : Nat → Nat)
    (bs i j : Nat) (e : DescriptorBinding) (h : pending_write bits e.type = false) :
    commit_binding bits vkdt bs i j e = (e, none) := by
  unfold commit_binding
  simp [h]

/-- After the loop body the binding is not pending. -/
theorem commit_binding_fst_not_pending (bits : DescriptorTypeBits) (vkdt : Nat → Nat)
    (bs i j : Nat) (e : DescriptorBinding) :
    pending_write bits (commit_binding bits vkdt bs i j e).1.type = false := by
  rw [commit_binding_fst_type]
  split_ifs with h
  · exact pending_write_clear bits e.type
  · simpa using h

/-- The inner loop visits the bindings of the row in place. -/
theorem commit_row_getElem? (bits : DescriptorTypeBits) (vkdt : Nat → Nat) (bs i : Nat)
    (row : List DescriptorBinding) :
    ∀ (j0 k : Nat), (commit_row bits vkdt bs i j0 row).1[k]?
      = (row[k]?).map (fun e => (commit_binding bits vkdt bs i (j0 + k) e).1) := by
  induction row with
  | nil => intro j0 k; simp [commit_row]
  | cons e rest ih =>
    intro j0 k
    cases k with
    | zero => simp [commit_row]
    | succ k =>
      simp only [commit_row, List.getElem?_cons_succ]
      rw [ih (j0 + 1) k]
      congr 2
      funext x
      congr 2
      omega

/-- The writes of the inner loop are those of the pending bindings of the row. -/
theorem mem_commit_row (bits : DescriptorTypeBits) (vkdt : Nat → Nat) (bs i : Nat)
    (row : List DescriptorBinding) (w : VkWriteDescriptorSet) :
    ∀ j0 : Nat, w ∈ (commit_row bits vkdt bs i j0 row).2
      ↔ ∃ k e, row[k]? = some e ∧ pending_write bits e.type = true
          ∧ w = commit_write bits vkdt bs i (j0 + k) (clear_pending_write bits e.type) := by
  induction row with
  | nil => intro j0; simp [commit_row]
  | cons e rest ih =>
    intro j0
    simp only [commit_row, List.mem_append, ih (j0 + 1), commit_binding_snd]
    constructor
    · rintro (h | ⟨k, e1, hk, hp, hw⟩)
      · by_cases hp : pending_write bits e.type = true
        · refine ⟨0, e, by simp, hp, ?_⟩
          simpa [hp] using h
        · simp [hp] at h
      · refine ⟨k + 1, e1, by simpa using hk, hp, ?_⟩
        rw [hw]
        congr 1
        omega
    · rintro ⟨k, e1, hk, hp, hw⟩
      cases k with
      | zero =>
        left
        simp only [List.getElem?_cons_zero, Option.some.injEq] at hk
        subst hk
        simp [hp, hw]
      | succ k =>
        right
        refine ⟨k, e1, by simpa using hk, hp, ?_⟩
        rw [hw]
        congr 1
        omega

/-- The writes of the inner loop are in ascending order of the array index. -/
theorem commit_row_pairwise (bits : DescriptorTypeBits) (vkdt : Nat → Nat) (bs i : Nat)
    (row : List DescriptorBinding) :
    ∀ j0 : Nat, (commit_row bits vkdt bs i j0 row).2.Pairwise write_before := by
  induction row with
  | nil => intro j0; simp [commit_row]
  | cons e rest ih =>
    intro j0
    simp only [commit_row]
    rw [List.pairwise_append]
    refine ⟨?_, ih (j0 + 1), ?_⟩
    · cases (commit_binding bits vkdt bs i j0 e).2 <;> simp
    · intro a ha b hb
      rw [commit_binding_snd] at ha
      rw [mem_commit_row] at hb
      obtain ⟨k, e1, _, _, hb⟩ := hb
      by_cases hp : pending_write bits e.type = true
      · simp only [hp, if_true, Option.toList_some, List.mem_singleton] at ha
        subst ha hb
        right
        simp only [commit_write, true_and]
        omega
      · simp [hp] at ha

/-- The inner loop leaves a row without pending bindings as it is and pushes nothing. -/
theorem commit_row_of_not_pending (bits : DescriptorTypeBits) (vkdt : Nat → Nat) (bs i : Nat)
    (row : List DescriptorBinding) :
    ∀ j0 : Nat, (∀ e ∈ row, pending_write bits e.type = false) →
      commit_row bits vkdt bs i j0 row = (row, []) := by
  induction row with
  | nil => intro j0 _; rfl
  | cons e rest ih =>
    intro j0 h
    simp only [commit_row]
    rw [commit_binding_of_not_pending bits vkdt bs i j0 e (h e (List.mem_cons_self _ _)),
      ih (j0 + 1) (fun x hx => h x (List.mem_cons_of_mem _ hx))]
    rfl

/-- After the inner loop no binding of the row is pending. -/
theorem commit_row_fst_not_pending (bits : DescriptorTypeBits) (vkdt : Nat → Nat) (bs i : Nat)
    (row : List DescriptorBinding) :
    ∀ j0 : Nat, ∀ e ∈ (commit_row bits vkdt bs i j0 row).1,
      pending_write bits e.type = false := by
  induction row with
  | nil => intro j0 e he; simp [commit_row] at he
  | cons x rest ih =>
    intro j0 e he
    simp only [commit_row, List.mem_cons] at he
    rcases he with he | he
    · rw [he]; exact commit_binding_fst_not_pending bits vkdt bs i j0 x
    · exact ih (j0 + 1) e he

/-- The outer loop visits the rows in place. -/
theorem commit_rows_getElem? (bits : DescriptorTypeBits) (vkdt : Nat → Nat) (bs : Nat)
    (rows : List (List DescriptorBinding)) :
    ∀ (i0 r : Nat), (commit_rows bits vkdt bs i0 rows).1[r]?
      = (rows[r]?).map (fun db => (commit_row bits vkdt bs (i0 + r) 0 db).1) := by
  induction rows with
  | nil => intro i0 r; simp [commit_rows]
  | cons db rest ih =>
    intro i0 r
    cases r with
    | zero => simp [commit_rows]
    | succ r =>
      simp only [commit_rows, List.getElem?_cons_succ]
      rw [ih (i0 + 1) r]
      congr 2
      funext x
      congr 2
      omega

/-- The writes of the two loops are those of the inner loop over each row. -/
theorem mem_commit_rows (bits : DescriptorTypeBits) (vkdt : Nat → Nat) (bs : Nat)
    (rows : List (List DescriptorBinding)) (w : VkWriteDescriptorSet) :
    ∀ i0 : Nat, w ∈ (commit_rows bits vkdt bs i0 rows).2
      ↔ ∃ r db, rows[r]? = some db ∧ w ∈ (commit_row bits vkdt bs (i0 + r) 0 db).2 := by
  induction rows with
  | nil => intro i0; simp [commit_rows]
  | cons db rest ih =>
    intro i0
    simp only [commit_rows, List.mem_append, ih (i0 + 1)]
    constructor
    · rintro (h | ⟨r, db1, hr, hw⟩)
      · exact ⟨0, db, by simp, by simpa using h⟩
      · refine ⟨r + 1, db1, by simpa using hr, ?_⟩
        have : i0 + (r + 1) = i0 + 1 + r := by omega
        rw [this]
        exact hw
    · rintro ⟨r, db1, hr, hw⟩
      cases r with
      | zero =>
        left
        simp only [List.getElem?_cons_zero, Option.some.injEq] at hr
        subst hr
        simpa using hw
      | succ r =>
        right
        refine ⟨r, db1, by simpa using hr, ?_⟩
        have : i0 + (r + 1) = i0 + 1 + r := by omega
        rw [this] at hw
        exact hw

/-- The writes of the two loops are in ascending lexicographic order. -/
theorem commit_rows_pairwise (bits : DescriptorTypeBits) (vkdt : Nat → Nat) (bs : Nat)
    (rows : List (List DescriptorBinding)) :
    ∀ i0 : Nat, (commit_rows bits vkdt bs i0 rows).2.Pairwise write_before := by
  induction rows with
  | nil => intro i0; simp [commit_rows]
  | cons db rest ih =>
    intro i0
    simp only [commit_rows]
    rw [List.pairwise_append]
    refine ⟨commit_row_pairwise bits vkdt bs i0 db 0, ih (i0 + 1), ?_⟩
    intro a ha b hb
    rw [mem_commit_row] at ha
    rw [mem_commit_rows] at hb
    obtain ⟨_, _, _, _, ha⟩ := ha
    obtain ⟨r, db1, _, hb⟩ := hb
    rw [mem_commit_row] at hb
    obtain ⟨_, _, _, _, hb⟩ := hb
    subst ha hb
    left
    simp only [commit_write]
    omega

/-- The two loops leave a table without pending bindings as it is and push nothing. -/
theorem commit_rows_of_not_pending (bits : DescriptorTypeBits) (vkdt : Nat → Nat) (bs : Nat)
    (rows : List (List DescriptorBinding)) :
    ∀ i0 : Nat, (∀ db ∈ rows, ∀ e ∈ db, pending_write bits e.type = false) →
      commit_rows bits vkdt bs i0 rows = (rows, []) := by
  induction rows with
  | nil => intro i0 _; rfl
  | cons db rest ih =>
    intro i0 h
    simp only [commit_rows]
    rw [commit_row_of_not_pending bits vkdt bs i0 db 0 (h db (List.mem_cons_self _ _)),
      ih (i0 + 1) (fun x hx => h x (List.mem_cons_of_mem _ hx))]
    rfl

/-- After the two loops no binding of the table is pending. -/
theorem commit_rows_fst_not_pending (bits : DescriptorTypeBits) (vkdt : Nat → Nat) (bs : Nat)
    (rows : List (List DescriptorBinding)) :
    ∀ i0 : Nat, ∀ db ∈ (commit_rows bits vkdt bs i0 rows).1, ∀ e ∈ db,
      pending_write bits e.type = false := by
  induction rows with
  | nil => intro i0 db hdb; simp [commit_rows] at hdb
  | cons x rest ih =>
    intro i0 db hdb
    simp only [commit_rows, List.mem_cons] at hdb
    rcases hdb with hdb | hdb
    · rw [hdb]; exact commit_row_fst_not_pending bits vkdt bs i0 x 0
    · exact ih (i0 + 1) db hdb

/-- A commit visits every binding in place. -/
theorem commit_binding_at (bits : DescriptorTypeBits) (vkdt : Nat → Nat)
    (pds : PersistentDescriptorSet) (i j : Nat) :
    (pds.commit bits vkdt).binding i j
      = (pds.binding i j).map
          (fun e => (commit_binding bits vkdt pds.backing_set i j e).1) := by
  unfold PersistentDescriptorSet.binding PersistentDescriptorSet.commit
  simp only [commit_rows_getElem?]
  cases pds.descriptor_bindings[i]? with
  | none => rfl
  | some db =>
    simp only [Option.map_some', Option.some_bind, commit_row_getElem?, Nat.zero_add]

/-- The writes of a commit are those of the pending bindings. -/
theorem mem_commit_wdss (bits : DescriptorTypeBits) (vkdt : Nat → Nat)
    (pds : PersistentDescriptorSet) (w : VkWriteDescriptorSet) :
    w ∈ (pds.commit bits vkdt).wdss
      ↔ ∃ i j e, pds.binding i j = some e ∧ pending_write bits e.type = true
          ∧ w = commit_write bits vkdt pds.backing_set i j
              (clear_pending_write bits e.type) := by
  unfold PersistentDescriptorSet.commit PersistentDescriptorSet.binding
  simp only [mem_commit_rows, mem_commit_row, Nat.zero_add]
  constructor
  · rintro ⟨r, db, hr, k, e, hk, hp, hw⟩
    exact ⟨r, k, e, by simp [hr, hk], hp, hw⟩
  · rintro ⟨i, j, e, hb, hp, hw⟩
    cases hr : pds.descriptor_bindings[i]? with
    | none => simp [hr] at hb
    | some db =>
      rw [hr] at hb
      exact ⟨i, db, hr, j, e, by simpa using hb, hp, hw⟩

/-- The inner loop keeps the length of the row. -/
theorem commit_row_length (bits : DescriptorTypeBits) (vkdt : Nat → Nat) (bs i : Nat)
    (row : List DescriptorBinding) :
    ∀ j0 : Nat, (commit_row bits vkdt bs i j0 row).1.length = row.length := by
  induction row with
  | nil => intro j0; rfl
  | cons e rest ih => intro j0; simp [commit_row, ih (j0 + 1)]

/-- The two loops keep the shape of the table. -/
theorem commit_rows_shape (bits : DescriptorTypeBits) (vkdt : Nat → Nat) (bs : Nat)
    (rows : List (List DescriptorBinding)) :
    ∀ i0 : Nat, (commit_rows bits vkdt bs i0 rows).1.map List.length
      = rows.map List.length := by
  induction rows with
  | nil => intro i0; rfl
  | cons db rest ih =>
    intro i0
    simp [commit_rows, ih (i0 + 1), commit_row_length]

/-- C17: `commit` replaces the write list by one write for each binding whose pending-write bit
is set and none for any other binding; the writes are in ascending lexicographic order of
(binding index, array index), no two of them address the same binding, and the write for the
binding at `(i, j)` has `dstBinding = i`, `dstArrayElement = j`, `descriptorCount = 1` and the
Vulkan descriptor type of the binding's type with the pending bit cleared.  The write list
before the commit has no influence on the one after it. -/
theorem commit_writes_pending_bindings (bits : DescriptorTypeBits) (vkdt : Nat → Nat)
    (pds : PersistentDescriptorSet) :
    (∀ i j e, pds.binding i j = some e → pending_write bits e.type = true →
        ∃ w ∈ (pds.commit bits vkdt).wdss, w.dstBinding = i ∧ w.dstArrayElement = j)
    ∧ (∀ w ∈ (pds.commit bits vkdt).wdss,
        ∃ e, pds.binding w.dstBinding w.dstArrayElement = some e
          ∧ pending_write bits e.type = true
          ∧ w.descriptorCount = 1
          ∧ w.descriptorType = vkdt (clear_pending_write bits e.type)
          ∧ w.dstSet = pds.backing_set)
    ∧ (pds.commit bits vkdt).wdss.Pairwise write_before
    ∧ ((pds.commit bits vkdt).wdss.map (fun w => (w.dstBinding, w.dstArrayElement))).Nodup
    ∧ (∀ ws0 : List VkWriteDescriptorSet,
        ({ pds with wdss := ws0 }.commit bits vkdt).wdss = (pds.commit bits vkdt).wdss) := by
  have hsorted : (pds.commit bits vkdt).wdss.Pairwise write_before :=
    commit_rows_pairwise bits vkdt pds.backing_set pds.descriptor_bindings 0
  refine ⟨?_, ?_, hsorted, ?_, ?_⟩
  · intro i j e hb hp
    exact ⟨_, (mem_commit_wdss bits vkdt pds _).2 ⟨i, j, e, hb, hp, rfl⟩, rfl, rfl⟩
  · intro w hw
    obtain ⟨i, j, e, hb, hp, rfl⟩ := (mem_commit_wdss bits vkdt pds w).1 hw
    exact ⟨e, hb, hp, rfl, rfl, rfl⟩
  · rw [List.Nodup, List.pairwise_map]
    refine hsorted.imp ?_
    intro a b hab heq
    simp only [Prod.mk.injEq] at heq
    rcases hab with h | ⟨_, h⟩
    · omega
    · omega
  · intro ws0
    rfl

/-- C18: after `commit` no binding has the pending-write bit set, the table has the shape it had
and every binding has the kind (its type without the pending bit) it had; a second `commit`
right after the first produces an empty write list and changes no binding. -/
theorem commit_clears_pending (bits : DescriptorTypeBits) (vkdt : Nat → Nat)
    (pds : PersistentDescriptorSet) :
    (∀ i j e1, (pds.commit bits vkdt).binding i j = some e1 →
        pending_write bits e1.type = false)
    ∧ (pds.commit bits vkdt).descriptor_bindings.map List.length
        = pds.descriptor_bindings.map List.length
    ∧ (∀ i j, ((pds.commit bits vkdt).binding i j).map
          (fun e => clear_pending_write bits e.type)
        = (pds.binding i j).map (fun e => clear_pending_write bits e.type))
    ∧ ((pds.commit bits vkdt).commit bits vkdt).wdss = []
    ∧ ((pds.commit bits vkdt).commit bits vkdt).descriptor_bindings
        = (pds.commit bits vkdt).descriptor_bindings := by
  have hclean : ∀ db ∈ (pds.commit bits vkdt).descriptor_bindings, ∀ e ∈ db,
      pending_write bits e.type = false :=
    commit_rows_fst_not_pending bits vkdt pds.backing_set pds.descriptor_bindings 0
  have hsecond := commit_rows_of_not_pending bits vkdt (pds.commit bits vkdt).backing_set
    (pds.commit bits vkdt).descriptor_bindings 0 hclean
  refine ⟨?_, ?_, ?_, ?_, ?_⟩
  · intro i j e1 h
    rw [commit_binding_at] at h
    cases hb : pds.binding i j with
    | none => simp [hb] at h
    | some e =>
      simp only [hb, Option.map_some', Option.some.injEq] at h
      rw [← h]
      exact commit_binding_fst_not_pending bits vkdt pds.backing_set i j e
  · exact commit_rows_shape bits vkdt pds.backing_set pds.descriptor_bindings 0
  · intro i j
    rw [commit_binding_at]
    cases pds.binding i j with
    | none => rfl
    | some e =>
      simp only [Option.map_some', Option.some.injEq, commit_binding_fst_type]
      split_ifs
      · exact clear_pending_write_idem bits e.type
      · rfl
  · show (commit_rows bits vkdt (pds.commit bits vkdt).backing_set 0
      (pds.commit bits vkdt).descriptor_bindings).2 = []
    rw [hsecond]
  · show (commit_rows bits vkdt (pds.commit bits vkdt).backing_set 0
      (pds.commit bits vkdt).descriptor_bindings).1 = _
    rw [hsecond]

/-- The common part of the updates rewrites the addressed binding and nothing else. -/
theorem update_binding_only_at (pds : PersistentDescriptorSet) (b a : Nat)
    (f : DescriptorBinding → DescriptorBinding)
    (hb : b < pds.descriptor_bindings.length) (ha : a < (pds.descriptor_bindings[b]).length) :
    ∃ pds1, pds.update_binding b a f = some pds1 ∧ pds.updated_only_at pds1 b a f := by
  have hres : pds.update_binding b a f = some { pds with
      descriptor_bindings := pds.descriptor_bindings.set b
        ((pds.descriptor_bindings[b]).set a (f (pds.descriptor_bindings[b])[a])) } := by
    simp only [PersistentDescriptorSet.update_binding, dif_pos hb, dif_pos ha]
  refine ⟨_, hres, ?_⟩
  have hrow : pds.descriptor_bindings[b]? = some pds.descriptor_bindings[b] :=
    List.getElem?_eq_getElem hb
  have hcell : (pds.descriptor_bindings[b])[a]? = some (pds.descriptor_bindings[b])[a] :=
    List.getElem?_eq_getElem ha
  refine ⟨rfl, rfl, ?_, ?_, ?_, ?_⟩
  · apply List.ext_getElem?
    intro i
    by_cases hi : i = b
    · subst hi
      simp [List.getElem?_map, List.getElem?_set, hb, hrow]
    · simp [List.getElem?_map, List.getElem?_set, Ne.symm hi]
  · simp [PersistentDescriptorSet.binding, hrow, hcell]
  · simp [PersistentDescriptorSet.binding, hrow, hcell, List.getElem?_set, hb, ha]
  · intro i j hij
    by_cases hi : i = b
    · subst hi
      have hj : j ≠ a := fun h => hij (by rw [h])
      simp [PersistentDescriptorSet.binding, hrow, List.getElem?_set, hb, Ne.symm hj]
    · simp [PersistentDescriptorSet.binding, List.getElem?_set, Ne.symm hi]

/-- A commit after a binding was given the kind `k` with the pending bit set emits a write for
the binding and leaves it with the type `k`. -/
theorem commit_after_update (bits : DescriptorTypeBits) (vkdt : Nat → Nat)
    (pds pds1 : PersistentDescriptorSet) (b a k : Nat) (f : DescriptorBinding → DescriptorBinding)
    (hf : ∀ e, (f e).type = u8 k ||| u8 bits.ePendingWrite)
    (hu : pds.updated_only_at pds1 b a f) (hk : bits.kind_ok k) :
    pds1.commit_writes_kind bits vkdt b a k := by
  obtain ⟨_, _, _, hsome, hnew, _⟩ := hu
  obtain ⟨e0, he0⟩ := Option.isSome_iff_exists.1 hsome
  rw [he0, Option.map_some'] at hnew
  obtain ⟨hpend, hclear⟩ := set_then_clear_pending bits k hk
  constructor
  · refine ⟨_, (mem_commit_wdss bits vkdt pds1 _).2
      ⟨b, a, f e0, hnew, by rw [hf]; exact hpend, rfl⟩, rfl, rfl, rfl, ?_⟩
    simp only [commit_write, hf, hclear]
  · rw [commit_binding_at, hnew, Option.map_some', Option.map_some', commit_binding_fst_type,
      hf, hpend, if_pos rfl, hclear]

/-- C19: each of the seven `update_*` functions, called with `binding` below the number of
bindings and `array_index` below the size of that binding's array, passes its assertions and
rewrites the binding at `(binding, array_index)` only: the type becomes the descriptor kind of
the function with the pending-write bit set, the payload becomes the value passed in
(`update_storage_image` stores the general layout), and every other binding, the shape of the
table, the backing set and the write list stay.  A commit that follows emits a write for the
binding and leaves its type equal to the descriptor kind of the function. -/
theorem update_then_commit (bits : DescriptorTypeBits) (vkdt : Nat → Nat)
    (pds : PersistentDescriptorSet) (b a : Nat)
    (hb : b < pds.descriptor_bindings.length) (ha : a < (pds.descriptor_bindings[b]).length)
    (hk : ∀ k ∈ bits.kinds, bits.kind_ok k)
    (iv sampler layout as : Nat) (buffer : Buffer) :
    (∃ pds1, pds.update_combined_image_sampler bits b a iv sampler layout = some pds1
      ∧ pds.updated_only_at pds1 b a (fun e =>
          { e with image := ⟨sampler, iv, layout⟩,
                   type := bits.eCombinedImageSampler ||| bits.ePendingWrite })
      ∧ pds1.commit_writes_kind bits vkdt b a bits.eCombinedImageSampler)
    ∧ (∃ pds1, pds.update_storage_image bits b a iv = some pds1
      ∧ pds.updated_only_at pds1 b a (fun e =>
          { e with image := ⟨0, iv, ImageLayout.eGeneral⟩,
                   type := bits.eStorageImage ||| bits.ePendingWrite })
      ∧ pds1.commit_writes_kind bits vkdt b a bits.eStorageImage)
    ∧ (∃ pds1, pds.update_uniform_buffer bits b a buffer = some pds1
      ∧ pds.updated_only_at pds1 b a (fun e =>
          { e with buffer := ⟨buffer.buffer, buffer.offset, buffer.size⟩,
                   type := bits.eUniformBuffer ||| bits.ePendingWrite })
      ∧ pds1.commit_writes_kind bits vkdt b a bits.eUniformBuffer)
    ∧ (∃ pds1, pds.update_storage_buffer bits b a buffer = some pds1
      ∧ pds.updated_only_at pds1 b a (fun e =>
          { e with buffer := ⟨buffer.buffer, buffer.offset, buffer.size⟩,
                   type := bits.eStorageBuffer ||| bits.ePendingWrite })
      ∧ pds1.commit_writes_kind bits vkdt b a bits.eStorageBuffer)
    ∧ (∃ pds1, pds.update_sampler bits b a sampler = some pds1
      ∧ pds.updated_only_at pds1 b a (fun e =>
          { e with image := ⟨sampler, 0, 0⟩,
                   type := bits.eSampler ||| bits.ePendingWrite })
      ∧ pds1.commit_writes_kind bits vkdt b a bits.eSampler)
    ∧ (∃ pds1, pds.update_sampled_image bits b a iv layout = some pds1
      ∧ pds.updated_only_at pds1 b a (fun e =>
          { e with image := ⟨0, iv, layout⟩,
                   type := bits.eSampledImage ||| bits.ePendingWrite })
      ∧ pds1.commit_writes_kind bits vkdt b a bits.eSampledImage)
    ∧ (∃ pds1, pds.update_acceleration_structure bits b a as = some pds1
      ∧ pds.updated_only_at pds1 b a (fun e =>
          { e with as := { e.as with as := as },
                   type := bits.eAccelerationStructureKHR ||| bits.ePendingWrite })
      ∧ pds1.commit_writes_kind bits vkdt b a bits.eAccelerationStructureKHR) := by
  have hu8 : ∀ k ∈ bits.kinds, u8 k = k ∧ u8 bits.ePendingWrite = bits.ePendingWrite := by
    intro k hmem
    obtain ⟨hp, _, hk256, _⟩ := hk k hmem
    exact ⟨Nat.mod_eq_of_lt hk256, Nat.mod_eq_of_lt hp⟩
  have step : ∀ (k : Nat) (f : DescriptorBinding → DescriptorBinding), k ∈ bits.kinds →
      (∀ e, (f e).type = k ||| bits.ePendingWrite) →
      ∃ pds1, pds.update_binding b a f = some pds1 ∧ pds.updated_only_at pds1 b a f
        ∧ pds1.commit_writes_kind bits vkdt b a k := by
    intro k f hmem hf
    obtain ⟨pds1, h1, h2⟩ := update_binding_only_at pds b a f hb ha
    refine ⟨pds1, h1, h2, commit_after_update bits vkdt pds pds1 b a k f ?_ h2 (hk k hmem)⟩
    intro e
    rw [hf, (hu8 k hmem).1, (hu8 k hmem).2]
  refine ⟨?_, ?_, ?_, ?_, ?_, ?_, ?_⟩
  · have hm : bits.eCombinedImageSampler ∈ bits.kinds := by simp [DescriptorTypeBits.kinds]
    simpa only [PersistentDescriptorSet.update_combined_image_sampler, (hu8 _ hm).1,
      (hu8 _ hm).2] using step _ _ hm (fun _ => rfl)
  · have hm : bits.eStorageImage ∈ bits.kinds := by simp [DescriptorTypeBits.kinds]
    simpa only [PersistentDescriptorSet.update_storage_image, (hu8 _ hm).1,
      (hu8 _ hm).2] using step _ _ hm (fun _ => rfl)
  · have hm : bits.eUniformBuffer ∈ bits.kinds := by simp [DescriptorTypeBits.kinds]
    simpa only [PersistentDescriptorSet.update_uniform_buffer, (hu8 _ hm).1,
      (hu8 _ hm).2] using step _ _ hm (fun _ => rfl)
  · have hm : bits.eStorageBuffer ∈ bits.kinds := by simp [DescriptorTypeBits.kinds]
    simpa only [PersistentDescriptorSet.update_storage_buffer, (hu8 _ hm).1,
      (hu8 _ hm).2] using step _ _ hm (fun _ => rfl)
  · have hm : bits.eSampler ∈ bits.kinds := by simp [DescriptorTypeBits.kinds]
    simpa only [PersistentDescriptorSet.update_sampler, (hu8 _ hm).1,
      (hu8 _ hm).2] using step _ _ hm (fun _ => rfl)
  · have hm : bits.eSampledImage ∈ bits.kinds := by simp [DescriptorTypeBits.kinds]
    simpa only [PersistentDescriptorSet.update_sampled_image, (hu8 _ hm).1,
      (hu8 _ hm).2] using step _ _ hm (fun _ => rfl)
  · have hm : bits.eAccelerationStructureKHR ∈ bits.kinds := by
      simp [DescriptorTypeBits.kinds]
    simpa only [PersistentDescriptorSet.update_acceleration_structure, (hu8 _ hm).1,
      (hu8 _ hm).2] using step _ _ hm (fun _ => rfl)

/-- C17 at the sample set, whose bindings `(0, 1)` and `(1, 0)` are pending. -/
theorem commit_writes_pending_bindings_witness :
    (∀ i j e, sample_pds.binding i j = some e → pending_write sample_dbits e.type = true →
        ∃ w ∈ (sample_pds.commit sample_dbits sample_vkdt).wdss,
          w.dstBinding = i ∧ w.dstArrayElement = j)
    ∧ (∀ w ∈ (sample_pds.commit sample_dbits sample_vkdt).wdss,
        ∃ e, sample_pds.binding w.dstBinding w.dstArrayElement = some e
          ∧ pending_write sample_dbits e.type = true
          ∧ w.descriptorCount = 1
          ∧ w.descriptorType = sample_vkdt (clear_pending_write sample_dbits e.type)
          ∧ w.dstSet = sample_pds.backing_set)
    ∧ (sample_pds.commit sample_dbits sample_vkdt).wdss.Pairwise write_before
    ∧ ((sample_pds.commit sample_dbits sample_vkdt).wdss.map
        (fun w => (w.dstBinding, w.dstArrayElement))).Nodup
    ∧ (∀ ws0 : List VkWriteDescriptorSet,
        ({ sample_pds with wdss := ws0 }.commit sample_dbits sample_vkdt).wdss
          = (sample_pds.commit sample_dbits sample_vkdt).wdss) :=
  commit_writes_pending_bindings sample_dbits sample_vkdt sample_pds

/-- C18 at the sample set. -/
theorem commit_clears_pending_witness :
    (∀ i j e1, (sample_pds.commit sample_dbits sample_vkdt).binding i j = some e1 →
        pending_write sample_dbits e1.type = false)
    ∧ (sample_pds.commit sample_dbits sample_vkdt).descriptor_bindings.map List.length
        = sample_pds.descriptor_bindings.map List.length
    ∧ (∀ i j, ((sample_pds.commit sample_dbits sample_vkdt).binding i j).map
          (fun e => clear_pending_write sample_dbits e.type)
        = (sample_pds.binding i j).map (fun e => clear_pending_write sample_dbits e.type))
    ∧ ((sample_pds.commit sample_dbits sample_vkdt).commit sample_dbits sample_vkdt).wdss = []
    ∧ ((sample_pds.commit sample_dbits sample_vkdt).commit sample_dbits
          sample_vkdt).descriptor_bindings
        = (sample_pds.commit sample_dbits sample_vkdt).descriptor_bindings :=
  commit_clears_pending sample_dbits sample_vkdt sample_pds

/-- C19 at the sample set, for the binding `(0, 1)`. -/
theorem update_then_commit_witness :
    (∀ k ∈ sample_dbits.kinds, sample_dbits.kind_ok k)
    ∧ (∃ pds1, sample_pds.update_combined_image_sampler sample_dbits 0 1 42 43 44 = some pds1
      ∧ sample_pds.updated_only_at pds1 0 1 (fun e =>
          { e with image := ⟨43, 42, 44⟩,
                   type := sample_dbits.eCombinedImageSampler ||| sample_dbits.ePendingWrite })
      ∧ pds1.commit_writes_kind sample_dbits sample_vkdt 0 1
          sample_dbits.eCombinedImageSampler)
    ∧ (∃ pds1, sample_pds.update_storage_image sample_dbits 0 1 42 = some pds1
      ∧ sample_pds.updated_only_at pds1 0 1 (fun e =>
          { e with image := ⟨0, 42, ImageLayout.eGeneral⟩,
                   type := sample_dbits.eStorageImage ||| sample_dbits.ePendingWrite })
      ∧ pds1.commit_writes_kind sample_dbits sample_vkdt 0 1
          sample_dbits.eStorageImage)
    ∧ (∃ pds1, sample_pds.update_uniform_buffer sample_dbits 0 1 ⟨1, 2, 3⟩ = some pds1
      ∧ sample_pds.updated_only_at pds1 0 1 (fun e =>
          { e with buffer := ⟨1, 2, 3⟩,
                   type := sample_dbits.eUniformBuffer ||| sample_dbits.ePendingWrite })
      ∧ pds1.commit_writes_kind sample_dbits sample_vkdt 0 1
          sample_dbits.eUniformBuffer)
    ∧ (∃ pds1, sample_pds.update_storage_buffer sample_dbits 0 1 ⟨1, 2, 3⟩ = some pds1
      ∧ sample_pds.updated_only_at pds1 0 1 (fun e =>
          { e with buffer := ⟨1, 2, 3⟩,
                   type := sample_dbits.eStorageBuffer ||| sample_dbits.ePendingWrite })
      ∧ pds1.commit_writes_kind sample_dbits sample_vkdt 0 1
          sample_dbits.eStorageBuffer)
    ∧ (∃ pds1, sample_pds.update_sampler sample_dbits 0 1 43 = some pds1
      ∧ sample_pds.updated_only_at pds1 0 1 (fun e =>
          { e with image := ⟨43, 0, 0⟩,
                   type := sample_dbits.eSampler ||| sample_dbits.ePendingWrite })
      ∧ pds1.commit_writes_kind sample_dbits sample_vkdt 0 1
          sample_dbits.eSampler)
    ∧ (∃ pds1, sample_pds.update_sampled_image sample_dbits 0 1 42 44 = some pds1
      ∧ sample_pds.updated_only_at pds1 0 1 (fun e =>
          { e with image := ⟨0, 42, 44⟩,
                   type := sample_dbits.eSampledImage ||| sample_dbits.ePendingWrite })
      ∧ pds1.commit_writes_kind sample_dbits sample_vkdt 0 1
          sample_dbits.eSampledImage)
    ∧ (∃ pds1, sample_pds.update_acceleration_structure sample_dbits 0 1 45 = some pds1
      ∧ sample_pds.updated_only_at pds1 0 1 (fun e =>
          { e with as := { e.as with as := 45 },
                   type := sample_dbits.eAccelerationStructureKHR ||| sample_dbits.ePendingWrite })
      ∧ pds1.commit_writes_kind sample_dbits sample_vkdt 0 1
          sample_dbits.eAccelerationStructureKHR) :=
  ⟨by decide,
    update_then_commit sample_dbits sample_vkdt sample_pds 0 1
      (by decide) (by decide) (by decide) 42 43 44 45 ⟨1, 2, 3⟩⟩

/-! ## Theorems: graph compilation -/

/-- Name resolution fails as soon as some pass refers to a name that is neither known at the
start nor produced by an earlier pass, and the failure names such a reference. -/
theorem resolve_names_fails (passes : List Pass) :
    ∀ (known : List QualifiedName),
      (∃ k p r, unresolved_reference_at known passes k p r) →
      ∃ k p r, unresolved_reference_at known passes k p r
        ∧ resolve_names known passes
            = Except.error (CompileError.unresolved_reference r.name p.name) := by
  induction passes with
  | nil =>
    rintro known ⟨k, p, r, hk, _⟩
    simp at hk
  | cons p0 ps ih =>
    rintro known ⟨k, p, r, hk, hr, hnot, hup⟩
    cases hfind : p0.resources.find? (fun r => decide (r.name ∉ known)) with
    | some r0 =>
      refine ⟨0, p0, r0, ⟨by simp, List.mem_of_find?_eq_some hfind, ?_, ?_⟩, ?_⟩
      · simpa using List.find?_some hfind
      · intro j p1 hj
        omega
      · rw [resolve_names, hfind]
    | none =>
      rw [List.find?_eq_none] at hfind
      cases k with
      | zero =>
        simp only [List.getElem?_cons_zero, Option.some.injEq] at hk
        subst hk
        have := hfind r hr
        simp only [decide_not, Bool.not_eq_true', decide_eq_false_iff_not, not_not] at this
        exact absurd this hnot
      | succ k =>
        have h0 : r.name ∉ p0.produced := hup 0 p0 (Nat.succ_pos k) (by simp)
        have hin : ∃ k p r, unresolved_reference_at (known ++ p0.produced) ps k p r := by
          refine ⟨k, p, r, by simpa using hk, hr, ?_, ?_⟩
          · simp [hnot, h0]
          · intro j p1 hj hp1
            exact hup (j + 1) p1 (Nat.succ_lt_succ hj) (by simpa using hp1)
        obtain ⟨k1, p1, r1, ⟨hk1, hr1, hnot1, hup1⟩, hres⟩ := ih _ hin
        rw [List.mem_append, not_or] at hnot1
        refine ⟨k1 + 1, p1, r1, ⟨by simpa using hk1, hr1, hnot1.1, ?_⟩, ?_⟩
        · intro j p2 hj hp2
          cases j with
          | zero =>
            simp only [List.getElem?_cons_zero, Option.some.injEq] at hp2
            subst hp2
            exact hnot1.2
          | succ j =>
            exact hup1 j p2 (Nat.lt_of_succ_lt_succ hj) (by simpa using hp2)
        · have hnone : p0.resources.find? (fun r => decide (r.name ∉ known)) = none :=
            List.find?_eq_none.2 hfind
          rw [resolve_names, hnone]
          exact hres

/-- C12: when some pass of the merged graph refers to a resource name that is neither attached
nor produced by an upstream pass, `compile` returns a failure, whatever the later stages
are; the failure is an unresolved-reference error that names such a name, with the pass that
refers to it, and it is not a compiled graph. -/
theorem compile_unresolved_reference_fails (later : List Pass → Except CompileError Unit)
    (rgs : List RenderGraph)
    (h : ∃ k p r, unresolved_reference_at (attached_names rgs) (inline_rgs rgs) k p r) :
    ∃ k p r, unresolved_reference_at (attached_names rgs) (inline_rgs rgs) k p r
      ∧ Compiler.compile later rgs
          = Except.error (CompileError.unresolved_reference r.name p.name)
      ∧ ∀ compiled, Compiler.compile later rgs ≠ Except.ok compiled := by
  obtain ⟨k, p, r, hu, hres⟩ := resolve_names_fails (inline_rgs rgs) (attached_names rgs) h
  have hc : Compiler.compile later rgs
      = Except.error (CompileError.unresolved_reference r.name p.name) := by
    simp only [Compiler.compile, hres]
  refine ⟨k, p, r, hu, hc, ?_⟩
  intro compiled hok
  rw [hc] at hok
  exact absurd hok (by simp)

/-- In the sample graph the pass `P2` refers to `missing_input`, which is neither attached nor
produced by the pass before it. -/
theorem sample_graph_unresolved :
    ∃ k p r, unresolved_reference_at (attached_names [sample_graph])
      (inline_rgs [sample_graph]) k p r := by
  refine ⟨1, _, Resource.inlined "G" (Resource.mk3 "missing_input" Resource.Type.eImage 2),
    rfl, by decide, by decide, ?_⟩
  intro j p1 hj hp1
  obtain rfl : j = 0 := by omega
  have hprod : ((inline_rgs [sample_graph])[0]?).map Pass.produced = some [⟨"G", "b+"⟩] := by
    decide
  rw [hp1, Option.map_some', Option.some.injEq] at hprod
  rw [hprod]
  decide

/-- C12 at the sample graph: `compile` fails with the unresolved-reference error that names
`missing_input` and the pass `P2`. -/
theorem compile_unresolved_reference_fails_witness :
    (∃ k p r, unresolved_reference_at (attached_names [sample_graph])
        (inline_rgs [sample_graph]) k p r)
    ∧ (∃ k p r, unresolved_reference_at (attached_names [sample_graph])
          (inline_rgs [sample_graph]) k p r
        ∧ Compiler.compile (fun _ => Except.ok ()) [sample_graph]
            = Except.error (CompileError.unresolved_reference r.name p.name)
        ∧ ∀ compiled, Compiler.compile (fun _ => Except.ok ()) [sample_graph]
            ≠ Except.ok compiled)
    ∧ Compiler.compile (fun _ => Except.ok ()) [sample_graph]
        = Except.error (CompileError.unresolved_reference ⟨"G", "missing_input"⟩ "P2") :=
  ⟨sample_graph_unresolved,
    compile_unresolved_reference_fails (fun _ => Except.ok ()) [sample_graph]
      sample_graph_unresolved,
    rfl⟩

end vuk
